import Mathlib

/-!
Verification development for the `dashbord-SO` host-metrics collector.

The repository is a small Python dashboard that reads Linux `/proc`
pseudo-files and derives CPU / memory / disk / per-process metrics.
This file gives a shallow embedding of the collection-and-derivation
engine (`model.py`, `model_system.py`), the snapshot store
(`controller.py`) and the limit-validation logic (`app.py`), and proves
or refutes the frozen claims about it.

Modelling conventions:
* Python `float` arithmetic is modelled by exact rationals (`ℚ`);
  Python `round(x, 2)` is modelled by rounding `100·x` to the nearest
  integer.
* Python strings are modelled as `List Char` so that every string
  operation is structurally recursive and reduces inside the kernel.
* Python dicts keyed by pid / string are modelled as association lists
  with first-match lookup, replace-or-append insertion and
  filter-deletion.
* Reads of kernel pseudo-files are inputs of the embedded functions:
  `Option`/`ReadResult` values describe either the file contents or the
  exception class the Python code catches.
* Mutable Python objects shared by reference (the snapshot store's
  record dicts) are modelled with an explicit heap of addresses.
-/

namespace DashSO

/-- Character list of a string literal (Python strings as `List Char`). -/
def strL (s : String) : List Char := s.data

/-- Python `s.startswith(p)` on character lists. -/
def startsL : List Char → List Char → Bool
  | _, [] => true
  | [], _ :: _ => false
  | c :: s, p :: ps => c == p && startsL s ps

/-- Python `str.strip()` of whitespace. -/
def trimL (l : List Char) : List Char :=
  ((l.dropWhile Char.isWhitespace).reverse.dropWhile Char.isWhitespace).reverse

/-- Python `s.strip(chars)`: remove leading and trailing characters in `cs`. -/
def stripSet (cs : List Char) (l : List Char) : List Char :=
  ((l.dropWhile (fun c => cs.contains c)).reverse.dropWhile
    (fun c => cs.contains c)).reverse

/-- Fuel-driven worker for `splitWs` (fuel bounds the remaining length). -/
def splitWsGo : Nat → List Char → List (List Char)
  | 0, _ => []
  | _ + 1, [] => []
  | n + 1, c :: rest =>
    if c.isWhitespace then splitWsGo n rest
    else (c :: rest.takeWhile (fun d => !d.isWhitespace)) ::
      splitWsGo n (rest.dropWhile (fun d => !d.isWhitespace))

/-- Python `str.split()` with no argument: split on whitespace runs,
dropping empty fields. -/
def splitWs (l : List Char) : List (List Char) := splitWsGo l.length l

/-- Python `str.split(sep, 1)` for a single-character separator:
split at the first occurrence only. -/
def splitOnceAt (sep : Char) : List Char → Option (List Char × List Char)
  | [] => none
  | c :: rest =>
    if c == sep then some ([], rest)
    else (splitOnceAt sep rest).map (fun p => (c :: p.1, p.2))

/-- Python `needle in haystack` substring test. -/
def containsSub (h nd : List Char) : Bool :=
  match h with
  | [] => nd.isEmpty
  | _ :: t => startsL h nd || containsSub t nd

/-- Fuel-driven worker for `removeSub`. -/
def removeSubGo : Nat → List Char → List Char → List Char
  | 0, h, _ => h
  | _ + 1, [], _ => []
  | n + 1, c :: t, nd =>
    if startsL (c :: t) nd && !nd.isEmpty then
      removeSubGo n ((c :: t).drop nd.length) nd
    else c :: removeSubGo n t nd

/-- Python `h.replace(nd, "")`: delete every occurrence of `nd`. -/
def removeSub (h nd : List Char) : List Char := removeSubGo h.length h nd

/-- Python `str.lower()`. -/
def toLowerL (l : List Char) : List Char := l.map Char.toLower

/-- Python `str.isdigit()`: nonempty and all decimal digits. -/
def isDigitsL (l : List Char) : Bool := !l.isEmpty && l.all Char.isDigit

/-- Numeric value of a digit string. -/
def digitsVal (l : List Char) : Nat :=
  l.foldl (fun a c => a * 10 + (c.toNat - 48)) 0

/-- Python `int(s)` on an already-stripped token: optional sign followed
by decimal digits, `none` on `ValueError`. -/
def parseIntL : List Char → Option Int
  | '-' :: rest => if isDigitsL rest then some (-(digitsVal rest : Int)) else none
  | '+' :: rest => if isDigitsL rest then some ((digitsVal rest : Int)) else none
  | l => if isDigitsL l then some ((digitsVal l : Int)) else none

/-- Python `round(x, 2)` modelled on rationals: round `100·x` to the
nearest integer and scale back. -/
def round2 (q : ℚ) : ℚ := ((round (q * 100) : ℤ) : ℚ) / 100

section Dict

variable {κ : Type} [DecidableEq κ] {α : Type}

/-- First-match lookup in an association-list dict. -/
def dget : List (κ × α) → κ → Option α
  | [], _ => none
  | (k, v) :: t, j => if k = j then some v else dget t j

/-- Python `d.get(k, default)`. -/
def dgetD (d : List (κ × α)) (j : κ) (df : α) : α := (dget d j).getD df

/-- Python `d[k] = v`: replace the existing binding or append a new one. -/
def dinsert (d : List (κ × α)) (j : κ) (v : α) : List (κ × α) :=
  if d.any (fun kv => decide (kv.1 = j)) then
    d.map (fun kv => if kv.1 = j then (j, v) else kv)
  else d ++ [(j, v)]

/-- Python `del d[k]`. -/
def derase (d : List (κ × α)) (j : κ) : List (κ × α) :=
  d.filter (fun kv => decide (kv.1 ≠ j))

/-- Python `d.keys()`. -/
def dkeys (d : List (κ × α)) : List κ := d.map Prod.fst

end Dict

namespace Model

/-! Shallow embedding of `model.py`. -/

/-- `CLK_TCK` (jiffies per second), `model.py` line 42. -/
def CLK_TCK : ℤ := 100

/-- `PAGE_SIZE` in bytes, `model.py` line 45. -/
def PAGE_SIZE : ℤ := 4096

/-- `SECTOR_SIZE` in bytes, `model.py` line 49. -/
def SECTOR_SIZE : ℤ := 512

/-- The module-level `cache` dict of `model.py` (lines 7-36).
`prev_sys_cpu_times` only ever holds the keys `ocioso` and `total`,
written together and read with `.get(k, 0)`, so it is represented by the
two integers with default `0`.  `prev_disk_stats` likewise holds
`total_reads_bytes`/`total_writes_bytes` together (`none` = the initial
empty dict).  The pid-keyed tables are association-list dicts. -/
structure Cache where
  prev_sys_ocioso : ℤ
  prev_sys_total : ℤ
  prev_times : List (ℕ × ℤ)
  prev_timestamp : ℚ
  mem_total_kb : Option ℤ
  prev_disk_stats : Option (ℤ × ℤ)
  prev_disk_io_timestamp : ℚ
  prev_proc_io_stats : List (ℕ × (ℤ × ℤ))

/-- Result of the `/proc/stat` CPU section of `get_global_info`
(`model.py` lines 131-173). -/
structure CpuSectionOut where
  used : ℚ
  idle : ℚ
  cacheUpd : Option (ℤ × ℤ)

/-- CPU percentage computation of `get_global_info` (`model.py` lines
131-173).  `read?` is the parsed integer fields of the first line of
`/proc/stat` (`none` models `FileNotFoundError`/`ValueError` on the
read, caught at line 172); index errors raised inside the `try` leave
the percentages at `0.0` and skip the cache update. -/
def cpuSection (read? : Option (List ℤ)) (prevO prevT : ℤ) : CpuSectionOut :=
  match read? with
  | none => ⟨0, 0, none⟩
  | some fields =>
    if 5 ≤ fields.length then
      let currentO := fields.getD 3 0 + fields.getD 4 0
      let currentT := fields.sum
      if prevT > 0 ∧ currentT > prevT then
        let totalDiff := currentT - prevT
        let ociosoDiff := currentO - prevO
        let used :=
          if totalDiff > 0 then (1 - (ociosoDiff : ℚ) / (totalDiff : ℚ)) * 100
          else 0
        let idle :=
          if totalDiff > 0 then ((ociosoDiff : ℚ) / (totalDiff : ℚ)) * 100
          else 0
        ⟨used, idle, some (currentO, currentT)⟩
      else
        if 8 ≤ fields.length then
          let nonOcioso := fields.getD 0 0 + fields.getD 1 0 + fields.getD 2 0 +
            fields.getD 5 0 + fields.getD 6 0 + fields.getD 7 0
          let used :=
            if currentT > 0 then ((nonOcioso : ℚ) / (currentT : ℚ)) * 100 else 0
          let idle :=
            if currentT > 0 then ((fields.getD 3 0 : ℚ) / (currentT : ℚ)) * 100
            else 0
          ⟨used, idle, some (currentO, currentT)⟩
        else ⟨0, 0, none⟩
    else ⟨0, 0, none⟩

/-- Result of the `/proc/meminfo` section of `get_global_info`
(`model.py` lines 178-228). -/
structure MemSectionOut where
  used_pct : ℚ
  free_pct : ℚ
  used_abs_kb : ℤ
  swap_used_kb : ℤ
  memTotalUpd : Option ℤ

/-- First-match lookup of a parsed `/proc/meminfo` table. -/
def lookupMem (m : List (String × ℤ)) (k : String) : Option ℤ :=
  (m.find? (fun kv => decide (kv.1 = k))).map Prod.snd

/-- Memory computation of `get_global_info` (`model.py` lines 178-228).
`mi?` is the parsed key→kB table (`none` models a read/parse error,
caught at line 222, which resets everything to the defaults). -/
def memSection (mi? : Option (List (String × ℤ))) : MemSectionOut :=
  match mi? with
  | none => ⟨0, 0, 0, 0, none⟩
  | some mi =>
    let total := (lookupMem mi "MemTotal").getD 1
    let avail := (lookupMem mi "MemAvailable").getD ((lookupMem mi "MemFree").getD 0)
    let used_pct := if total > 0 then (1 - (avail : ℚ) / (total : ℚ)) * 100 else 0
    let free_pct := if total > 0 then ((avail : ℚ) / (total : ℚ)) * 100 else 0
    let used_abs := if total > 0 then total - avail else 0
    let swap_total := (lookupMem mi "SwapTotal").getD 0
    let swap_free := (lookupMem mi "SwapFree").getD 0
    ⟨used_pct, free_pct, used_abs, swap_total - swap_free, some total⟩

/-- Disk-device relevance filter of `get_global_info` (`model.py` lines
258-287): whole `sd`/`hd`/`vd`/`xvd` devices (no digit after the
matched start, first match breaks the loop), whole `nvme` devices (no
`p` after `nvme`), with `sr`/`loop`/`ram`/`dm-` devices excluded last. -/
def isRelevantDevice (dev : List Char) : Bool :=
  let fromLoop :=
    if startsL dev (strL "sd") then !(dev.drop 2).any Char.isDigit
    else if startsL dev (strL "hd") then !(dev.drop 2).any Char.isDigit
    else if startsL dev (strL "vd") then !(dev.drop 2).any Char.isDigit
    else if startsL dev (strL "xvd") then !(dev.drop 3).any Char.isDigit
    else false
  let withNvme :=
    if !fromLoop && startsL dev (strL "nvme") then
      !(dev.drop 4).contains 'p'
    else fromLoop
  if startsL dev (strL "sr") || startsL dev (strL "loop") ||
      startsL dev (strL "ram") || startsL dev (strL "dm-") then false
  else withNvme

/-- One step of the `/proc/diskstats` aggregation loop (`model.py` lines
263-300): lines with fewer than 10 fields are skipped; for a relevant
device both sector counters must parse (`int(...)`) before either
accumulator is updated — a `ValueError` on either skips the line. -/
def diskLineStep (acc : ℤ × ℤ) (fields : List (List Char)) : ℤ × ℤ :=
  if fields.length < 10 then acc
  else
    let device := fields.getD 2 []
    if isRelevantDevice device then
      match parseIntL (fields.getD 5 []), parseIntL (fields.getD 9 []) with
      | some r, some w => (acc.1 + r * SECTOR_SIZE, acc.2 + w * SECTOR_SIZE)
      | _, _ => acc
    else acc

/-- Aggregated read/write bytes over all `/proc/diskstats` lines
(`model.py` lines 255-300). -/
def diskAggregate (lines : List (List (List Char))) : ℤ × ℤ :=
  lines.foldl diskLineStep (0, 0)

/-- The dict returned by `get_global_info` (`model.py` lines 334-344),
with the Python float values as exact rationals. -/
structure GlobalInfo where
  cpu_pct : ℚ
  cpu_ocioso_pct : ℚ
  mem_usada_kb : ℤ
  mem_pct : ℚ
  mem_livre_pct : ℚ
  total_processos : ℕ
  total_threads : ℤ
  leitura_disco_bps : ℚ
  escrita_disco_bps : ℚ

/-- Inputs of one `get_global_info` call: the current wall-clock time
and the contents of the kernel pseudo-files it reads.  `procThreads`
has one entry per numeric `/proc` directory, carrying the parsed
`Threads:` value of its `status` file (`none` models the per-process
`FileNotFoundError`/`PermissionError`/`ValueError` caught at line 245). -/
structure GlobalInput where
  now : ℚ
  statFields : Option (List ℤ)
  meminfo : Option (List (String × ℤ))
  procThreads : List (Option ℤ)
  diskLines : List (List (List Char))

/-- `get_global_info` (`model.py` lines 109-344). -/
def get_global_info (inp : GlobalInput) (c : Cache) : GlobalInfo × Cache :=
  let cpu := cpuSection inp.statFields c.prev_sys_ocioso c.prev_sys_total
  let mem := memSection inp.meminfo
  let proc_count := inp.procThreads.length
  let thread_count := ((inp.procThreads.filterMap id).foldl (· + ·) 0 : ℤ)
  let agg := diskAggregate inp.diskLines
  let elapsedDisk0 := inp.now - c.prev_disk_io_timestamp
  let elapsedDisk := if elapsedDisk0 ≤ 1/1000 then 1 else elapsedDisk0
  let prevReads := ((c.prev_disk_stats.map Prod.fst).getD agg.1)
  let prevWrites := ((c.prev_disk_stats.map Prod.snd).getD agg.2)
  let rates : ℚ × ℚ :=
    if c.prev_disk_io_timestamp < inp.now - 1/10 then
      (((agg.1 - prevReads : ℤ) : ℚ) / elapsedDisk,
       ((agg.2 - prevWrites : ℤ) : ℚ) / elapsedDisk)
    else (0, 0)
  let info : GlobalInfo :=
    { cpu_pct := round2 cpu.used
      cpu_ocioso_pct := round2 cpu.idle
      mem_usada_kb := mem.used_abs_kb
      mem_pct := round2 mem.used_pct
      mem_livre_pct := round2 mem.free_pct
      total_processos := proc_count
      total_threads := thread_count
      leitura_disco_bps := round2 (max 0 rates.1)
      escrita_disco_bps := round2 (max 0 rates.2) }
  let c' : Cache :=
    { c with
      prev_sys_ocioso := (cpu.cacheUpd.map Prod.fst).getD c.prev_sys_ocioso
      prev_sys_total := (cpu.cacheUpd.map Prod.snd).getD c.prev_sys_total
      mem_total_kb := match mem.memTotalUpd with
        | some t => some t
        | none => c.mem_total_kb
      prev_disk_stats := some agg
      prev_disk_io_timestamp := inp.now }
  (info, c')

/-- Outcome of opening and reading a `/proc/<pid>` file: `ok` with the
contents, `notFound` for `FileNotFoundError`, `err` for the
`PermissionError`/`IndexError`/`ValueError` class. -/
inductive ReadResult (α : Type)
  | ok (a : α)
  | notFound
  | err
deriving DecidableEq

/-- One numeric `/proc` directory seen by the `get_processes_info` loop
(`model.py` lines 394-401): the pid and the contents of its `stat`,
`status` and `io` files.  For `io` every caught exception class behaves
identically (`pass`, line 500), so a single `Option` models it. -/
structure ProcSample where
  pid : ℕ
  statTokens : ReadResult (List (List Char))
  statusLines : ReadResult (List (List Char))
  ioLines : Option (List (List Char))

/-- Parse of the `stat` line (`model.py` lines 407-419): `vals[1]`
stripped of parentheses, `int(vals[13])`, `int(vals[14])`; missing or
non-numeric fields raise (handled as the `err` class by the caller). -/
def parseStat (tokens : List (List Char)) : Option (List Char × ℤ × ℤ) :=
  match tokens.get? 1 with
  | none => none
  | some rawName =>
    match tokens.get? 13 with
    | none => none
    | some t13 =>
      match parseIntL t13 with
      | none => none
      | some utime =>
        match tokens.get? 14 with
        | none => none
        | some t14 =>
          match parseIntL t14 with
          | none => none
          | some stime => some (stripSet (strL "()") rawName, utime, stime)

/-- Accumulated values of the `status` scan (`model.py` lines 424-438),
with the Python initialisers `uid_int = -1`, `mem_kb_val = 0`,
`num_threads = 0`. -/
structure StatusData where
  uid : ℤ
  memKb : ℤ
  threads : ℤ
deriving DecidableEq

/-- One line of the `status` scan (`model.py` lines 429-438): `Uid:` and
`Threads:` parse `line.split()[1]` with `int` (failures raise, giving
`none`); `VmRSS:` keeps `int(tok)` only when `tok.isdigit()`, else `0`. -/
def scanStatusLine (st : StatusData) (l : List Char) : Option StatusData :=
  if startsL l (strL "Uid:") then
    match (splitWs l).get? 1 with
    | none => none
    | some tok => (parseIntL tok).map (fun u => { st with uid := u })
  else if startsL l (strL "VmRSS:") then
    match (splitWs l).get? 1 with
    | none => none
    | some tok =>
      some { st with memKb := if isDigitsL tok then (parseIntL tok).getD 0 else 0 }
  else if startsL l (strL "Threads:") then
    match (splitWs l).get? 1 with
    | none => none
    | some tok => (parseIntL tok).map (fun t => { st with threads := t })
  else some st

/-- Scan of all `status` lines; `none` propagates the first raised
`IndexError`/`ValueError`. -/
def scanStatus (lines : List (List Char)) : Option StatusData :=
  lines.foldlM scanStatusLine ⟨-1, 0, 0⟩

/-- Scan of the `io` file (`model.py` lines 475-482): `read_bytes:` and
`write_bytes:` lines are parsed with `int(line.split()[1])`; any raise
makes the whole `try` block a no-op (`none`). -/
def scanIoLine (st : ℤ × ℤ) (l : List Char) : Option (ℤ × ℤ) :=
  if startsL l (strL "read_bytes:") then
    match (splitWs l).get? 1 with
    | none => none
    | some tok => (parseIntL tok).map (fun r => (r, st.2))
  else if startsL l (strL "write_bytes:") then
    match (splitWs l).get? 1 with
    | none => none
    | some tok => (parseIntL tok).map (fun w => (st.1, w))
  else some st

/-- Scan of all `io` lines, starting from the Python initialisers `0`. -/
def scanIo (lines : List (List Char)) : Option (ℤ × ℤ) :=
  lines.foldlM scanIoLine (0, 0)

/-- One process record of the returned list (`model.py` lines 504-515). -/
structure PRecord where
  pid : ℕ
  name : List Char
  username : List Char
  threads : ℤ
  cpu_percent : ℚ
  memory_mb : ℚ
  memory_percent : ℚ
  cpu_time : ℚ
  io_read_bps : ℚ
  io_write_bps : ℚ
deriving DecidableEq

/-- Deletion of a vanished or unreadable pid from both pid-keyed cache
tables (`model.py` lines 441-442, 520-521, 530-531, 536-537). -/
def dropPid (c : Cache) (pid : ℕ) : Cache :=
  { c with
    prev_times := derase c.prev_times pid
    prev_proc_io_stats := derase c.prev_proc_io_stats pid }

/-- The body of the per-process loop of `get_processes_info` for one
sample (`model.py` lines 403-538): returns the record appended to the
result (or `none` when the process is skipped) and the updated cache. -/
def processOne (lookupUser : ℤ → List Char) (elapsed : ℚ) (memTotal : ℤ)
    (s : ProcSample) (c : Cache) : Option PRecord × Cache :=
  match s.statTokens with
  | .notFound => (none, dropPid c s.pid)
  | .err => (none, dropPid c s.pid)
  | .ok tokens =>
    match parseStat tokens with
    | none => (none, dropPid c s.pid)
    | some (name, utime, stime) =>
      let currentTicks := utime + stime
      match s.statusLines with
      | .notFound => (none, dropPid c s.pid)
      | .err => (none, dropPid c s.pid)
      | .ok lines =>
        match scanStatus lines with
        | none => (none, dropPid c s.pid)
        | some sd =>
          let username := if sd.uid ≠ -1 then lookupUser sd.uid else strL "N/A"
          let prevTicks := dgetD c.prev_times s.pid 0
          let cpuTimeDiffSeconds := ((currentTicks - prevTicks : ℤ) : ℚ) / (CLK_TCK : ℚ)
          let cpuPct := (cpuTimeDiffSeconds / elapsed) * 100
          let memMb := (sd.memKb : ℚ) / 1024
          let memPct :=
            if memTotal > 0 then ((sd.memKb : ℚ) / (memTotal : ℚ)) * 100 else 0
          let cpuTimeSeconds := ((currentTicks : ℤ) : ℚ) / (CLK_TCK : ℚ)
          let c1 := { c with prev_times := dinsert c.prev_times s.pid currentTicks }
          let ioResult : ℚ × ℚ × Cache :=
            match s.ioLines.bind scanIo with
            | none => (0, 0, c1)
            | some (curR, curW) =>
              let rates : ℚ × ℚ :=
                match dget c1.prev_proc_io_stats s.pid with
                | some (pr, pw) =>
                  (if elapsed > 0 then ((curR - pr : ℤ) : ℚ) / elapsed else 0,
                   if elapsed > 0 then ((curW - pw : ℤ) : ℚ) / elapsed else 0)
                | none => (0, 0)
              (rates.1, rates.2,
                { c1 with prev_proc_io_stats :=
                    dinsert c1.prev_proc_io_stats s.pid (curR, curW) })
          let rec_ : PRecord :=
            { pid := s.pid
              name := name
              username := username
              threads := sd.threads
              cpu_percent := round2 (max 0 cpuPct)
              memory_mb := round2 memMb
              memory_percent := round2 memPct
              cpu_time := round2 cpuTimeSeconds
              io_read_bps := round2 (max 0 ioResult.1)
              io_write_bps := round2 (max 0 ioResult.2.1) }
          (some rec_, ioResult.2.2)

/-- The whole per-process loop in `/proc` iteration order. -/
def processSamples (lookupUser : ℤ → List Char) (elapsed : ℚ) (memTotal : ℤ) :
    List ProcSample → Cache → List PRecord × Cache
  | [], c => ([], c)
  | s :: rest, c =>
    let o := processOne lookupUser elapsed memTotal s c
    let r := processSamples lookupUser elapsed memTotal rest o.2
    (o.1.toList ++ r.1, r.2)

/-- Stale-pid eviction (`model.py` lines 543-550): compute the cached
keys that are not in the active set and delete each of them. -/
def evict {α : Type} (d : List (ℕ × α)) (active : List ℕ) : List (ℕ × α) :=
  let stale := (dkeys d).filter (fun k => decide (k ∉ active))
  stale.foldl (fun acc k => derase acc k) d

/-- Stable insertion into a list sorted by descending `cpu_time`:
an element moves ahead only of records with strictly smaller key, so
equal keys keep their original relative order, exactly as Python's
stable `list.sort(key=..., reverse=True)`. -/
def insertByCpuTime (r : PRecord) : List PRecord → List PRecord
  | [] => [r]
  | x :: xs =>
    if x.cpu_time < r.cpu_time then r :: x :: xs
    else x :: insertByCpuTime r xs

/-- Stable sort by descending `cpu_time` (`model.py` line 558,
`processes.sort(key=lambda x: x.get('cpu_time', 0), reverse=True)`). -/
def sortByCpuTimeDesc : List PRecord → List PRecord
  | [] => []
  | x :: xs => insertByCpuTime x (sortByCpuTimeDesc xs)

/-- Inputs of one `get_processes_info` call.  `memTotalRead` is the
`MemTotal` value of the fallback `/proc/meminfo` read at lines 377-385
(`none` models the caught read error, which stores `1`);
`lookupUser` abstracts `get_username_from_uid_local` (a pure
uid→name function for a fixed `/etc/passwd`). -/
structure ProcInput where
  now : ℚ
  samples : List ProcSample
  memTotalRead : Option ℤ
  lookupUser : ℤ → List Char

/-- `get_processes_info` (`model.py` lines 346-560). -/
def get_processes_info (inp : ProcInput) (c : Cache) (limit : ℕ) :
    List PRecord × Cache :=
  let elapsed0 := inp.now - c.prev_timestamp
  let elapsed := if elapsed0 ≤ 1/1000 then 1 else elapsed0
  let c1 :=
    if c.mem_total_kb = none then
      { c with mem_total_kb := some ((inp.memTotalRead).getD 1) }
    else c
  let memTotal0 := c1.mem_total_kb.getD 1
  let memTotal := if memTotal0 = 0 then 1 else memTotal0
  let active := inp.samples.map ProcSample.pid
  let p := processSamples inp.lookupUser elapsed memTotal inp.samples c1
  let c3 :=
    { p.2 with
      prev_times := evict p.2.prev_times active
      prev_proc_io_stats := evict p.2.prev_proc_io_stats active
      prev_timestamp := inp.now }
  ((sortByCpuTimeDesc p.1).take limit, c3)

/-- `_parse_kb_value_from_status_line` (`model.py` lines 562-584). -/
def parse_kb_value_from_status_line (v : List Char) : ℤ :=
  if containsSub (toLowerL v) (strL "kb") then
    (parseIntL (trimL (removeSub (toLowerL v) (strL "kb")))).getD 0
  else 0

/-- `_translate_priority_from_nice` (`model.py` lines 752-783); `none`
is the non-integer (`"N/A"`) case. -/
def translate_priority_from_nice : Option ℤ → List Char
  | none => strL "N/A"
  | some n =>
    if n ≤ -15 then strL "Muito Alta"
    else if n ≤ -1 then strL "Alta"
    else if n = 0 then strL "Normal"
    else if n ≤ 10 then strL "Baixa"
    else if n ≤ 19 then strL "Muito Baixa"
    else strL "Desconhecida"

/-- Python `int(x)` applied to a rational (true division result):
truncation toward zero. -/
def truncQ (q : ℚ) : ℤ := if 0 ≤ q then ⌊q⌋ else -⌊-q⌋

/-- Page count `int(kb * 1024 / PAGE_SIZE)` (`model.py` lines 708-712);
`none` is the dead `'N/A'` branch for a non-positive `PAGE_SIZE`. -/
def pagesOf (kb : ℤ) : Option ℤ :=
  if PAGE_SIZE > 0 then some (truncQ ((kb : ℚ) * 1024 / (PAGE_SIZE : ℚ)))
  else none

/-- The `status_content` dict (`model.py` lines 610-616): split each
line at the first `:`, keep only two-part lines, strip both halves. -/
def buildStatusContent (lines : List (List Char)) :
    List (List Char × List Char) :=
  lines.foldl
    (fun d l =>
      match splitOnceAt ':' l with
      | some (k, v) => dinsert d (trimL k) (trimL v)
      | none => d)
    []

/-- `status_content.get(key, default)`. -/
def sget (d : List (List Char × List Char)) (k df : String) : List Char :=
  dgetD d (strL k) (strL df)

/-- The four values pulled from `/proc/<pid>/stat` by
`get_process_details` (`model.py` lines 640-652), with the partial
assignment semantics of a raise mid-block: a failure at field `i`
keeps the defaults for every later field. -/
def detailStat (tokens? : Option (List (List Char))) :
    ℤ × ℤ × Option ℤ × Option ℤ :=
  match tokens? with
  | none => (0, 0, none, none)
  | some ts =>
    match ts.get? 13 >>= parseIntL with
    | none => (0, 0, none, none)
    | some u =>
      match ts.get? 14 >>= parseIntL with
      | none => (u, 0, none, none)
      | some s =>
        match ts.get? 18 >>= parseIntL with
        | none => (u, s, none, none)
        | some n =>
          match ts.get? 21 >>= parseIntL with
          | none => (u, s, some n, none)
          | some stt => (u, s, some n, some stt)

/-- Rendering of the `Iniciado` field (`model.py` lines 660-682):
the formatted datetime string is abstracted by the epoch it formats. -/
inductive StartDisplay
  | na
  | epochFmt (epoch : ℚ)
  | afterBoot (secs : ℚ)
deriving DecidableEq

/-- The dict returned by `get_process_details` (`model.py` lines
720-743). -/
structure ProcessDetails where
  pid : ℕ
  nome : List Char
  usuario : List Char
  estado : List Char
  numero_threads : List Char
  mem_residente_str : List Char
  mem_virtual_str : List Char
  paginas_residente : Option ℤ
  paginas_virtual : Option ℤ
  paginas_codigo : Option ℤ
  paginas_dados_heap : Option ℤ
  paginas_stack : Option ℤ
  mem_compartilhada_str : List Char
  mem_gravavel_str : List Char
  tempo_cpu_s : ℚ
  iniciado : StartDisplay
  prioridade : List Char
  nice : Option ℤ
deriving DecidableEq

/-- Inputs of one `get_process_details` call: whether `/proc/<pid>`
exists, the `status` and `stat` file contents, and the parsed system
`btime` (`0` when `/proc/stat` has no readable `btime` line). -/
structure DetailInput where
  dirExists : Bool
  statusLines : ReadResult (List (List Char))
  statTokens : Option (List (List Char))
  btime : ℤ
  lookupUser : ℤ → List Char

/-- `get_process_details` (`model.py` lines 586-750).  Every exception
path of the Python function is caught and turned into `None`; the
embedding is total and returns `none` on each of those paths. -/
def get_process_details (inp : DetailInput) (pid : ℕ) : Option ProcessDetails :=
  if !inp.dirExists then none
  else
    match inp.statusLines with
    | .notFound => none
    | .err => none
    | .ok lines =>
      let content := buildStatusContent lines
      let nameVal := sget content "Name" "N/A"
      let rawState := sget content "State" "N/A"
      let uidLine := sget content "Uid" "N/A N/A N/A N/A"
      match (splitWs uidLine).get? 0 with
      | none => none
      | some uidTok =>
        let username :=
          if isDigitsL uidTok then inp.lookupUser ((parseIntL uidTok).getD 0)
          else strL "N/A"
        let threadsStr := sget content "Threads" "N/A"
        let stat4 := detailStat inp.statTokens
        let utime := stat4.1
        let stime := stat4.2.1
        let nice? := stat4.2.2.1
        let start? := stat4.2.2.2
        let prio := translate_priority_from_nice nice?
        let cpuTime := round2 (((utime + stime : ℤ) : ℚ) / (CLK_TCK : ℚ))
        let iniciado : StartDisplay :=
          match start? with
          | none => .na
          | some stk =>
            if inp.btime > 0 then
              .epochFmt ((inp.btime : ℚ) + (stk : ℚ) / (CLK_TCK : ℚ))
            else .afterBoot ((stk : ℚ) / (CLK_TCK : ℚ))
        let vmRssStr := sget content "VmRSS" "0 kB"
        let vmSizeStr := sget content "VmSize" "0 kB"
        let rssShmemStr := sget content "RssShmem" "0 kB"
        let vmRssKb := parse_kb_value_from_status_line vmRssStr
        let vmSizeKb := parse_kb_value_from_status_line vmSizeStr
        let vmExeKb := parse_kb_value_from_status_line (sget content "VmExe" "0 kB")
        let vmDataKb := parse_kb_value_from_status_line (sget content "VmData" "0 kB")
        let vmStkKb := parse_kb_value_from_status_line (sget content "VmStk" "0 kB")
        let vmDataStr := sget content "VmData" "0 kB"
        some
          { pid := pid
            nome := nameVal
            usuario := username
            estado := rawState
            numero_threads := threadsStr
            mem_residente_str := vmRssStr
            mem_virtual_str := vmSizeStr
            paginas_residente := pagesOf vmRssKb
            paginas_virtual := pagesOf vmSizeKb
            paginas_codigo := pagesOf vmExeKb
            paginas_dados_heap := pagesOf vmDataKb
            paginas_stack := pagesOf vmStkKb
            mem_compartilhada_str := rssShmemStr
            mem_gravavel_str := vmDataStr
            tempo_cpu_s := cpuTime
            iniciado := iniciado
            prioridade := prio
            nice := nice? }

end Model

namespace ModelSystem

/-! Shallow embedding of the open-file enumeration of
`model_system.py`. -/

/-- What `os.readlink` and the subsequent `Path(real_path)` queries
yield for one resolved descriptor target. -/
structure TargetInfo where
  path : List Char
  isDirT : Bool
  isFifoT : Bool
  isSockT : Bool
  isSymlinkT : Bool
deriving DecidableEq

/-- Outcome of `os.readlink` on one `/proc/<pid>/fd` entry
(`model_system.py` lines 467, 486-499). -/
inductive LinkResult
  | ok (target : TargetInfo)
  | notFound
  | permDenied
  | otherErr
deriving DecidableEq

/-- One entry of the `/proc/<pid>/fd` directory. -/
structure FdEntry where
  name : List Char
  link : LinkResult
deriving DecidableEq

/-- One record of the returned open-resource list
(`model_system.py` lines 481-499). -/
structure OpenFileRec where
  fd : List Char
  path : List Char
  type : List Char
deriving DecidableEq

/-- State of `/proc/<pid>/fd` as seen by `get_process_open_files`:
whether it is a directory, and its entries (`Except.error` models a
`PermissionError`/`Exception` raised by the iteration itself,
lines 500-503). -/
structure FdDirState where
  isDir : Bool
  entries : Except Unit (List FdEntry)

/-- Resource-kind classification (`model_system.py` lines 470-479),
checked in source order with `"arquivo"` as the default. -/
def classifyResource (t : TargetInfo) : List Char :=
  if startsL t.path (strL "socket:") then strL "socket"
  else if startsL t.path (strL "pipe:") then strL "pipe"
  else if startsL t.path (strL "anon_inode:") then strL "inode anônimo"
  else if startsL t.path (strL "/dev/") then strL "dispositivo"
  else if t.path = strL "/" then strL "diretório raiz"
  else if t.isDirT then strL "diretório"
  else if t.isFifoT then strL "FIFO (pipe nomeado)"
  else if t.isSockT then strL "socket (filesystem)"
  else if t.isSymlinkT then strL "link simbólico"
  else strL "arquivo"

/-- Records contributed by one fd entry (`model_system.py` lines
465-499): a resolved entry is appended with its classification; a
vanished one is skipped; a permission-denied or otherwise failing one
is appended with a synthetic path and unknown type. -/
def processFd (e : FdEntry) : List OpenFileRec :=
  match e.link with
  | .ok t => [{ fd := e.name, path := t.path, type := classifyResource t }]
  | .notFound => []
  | .permDenied =>
    [{ fd := e.name, path := strL "[Permissão Negada]", type := strL "Desconhecido" }]
  | .otherErr =>
    [{ fd := e.name, path := strL "[Erro ao Ler]", type := strL "Desconhecido" }]

/-- `get_process_open_files` (`model_system.py` lines 443-505).  All
exception paths are handled inside the Python function, so the
embedding is total; a failing directory iteration returns the records
collected so far (modelled as the empty list). -/
def get_process_open_files (st : FdDirState) : List OpenFileRec :=
  if !st.isDir then []
  else
    match st.entries with
    | .error _ => []
    | .ok es => es.foldr (fun e acc => processFd e ++ acc) []

end ModelSystem

namespace Controller

/-! Shallow embedding of `controller.py`.  The `SystemData` store keeps
*references* to mutable Python dicts; reference sharing is made
explicit with a heap of addresses so that the shallow-copy semantics
of `get_snapshot` (`dict.copy()` / `list(...)`) is observable. -/

/-- Immutable Python scalar values stored in the record dicts. -/
inductive PyVal
  | int (n : ℤ)
  | rat (q : ℚ)
  | str (s : List Char)
deriving DecidableEq

/-- A Python dict object with scalar values. -/
abbrev PyDict := List (String × PyVal)

/-- Heap addresses of mutable dict objects. -/
abbrev Addr := ℕ

/-- The heap: every mutable dict object lives at an address. -/
abbrev Heap := List (Addr × PyDict)

/-- Dereference an address (first binding wins; unknown address reads
as the empty dict). -/
def heapGet (h : Heap) (a : Addr) : PyDict := (dget h a).getD []

/-- Mutate one key of the dict object at address `a` (a caller writing
through a reference it holds). -/
def heapSet (h : Heap) (a : Addr) (k : String) (v : PyVal) : Heap :=
  h.map (fun ad => if ad.1 = a then (a, dinsert ad.2 k v) else ad)

/-- Largest allocated address. -/
def maxAddr (h : Heap) : ℕ := (h.map Prod.fst).foldr max 0

/-- A fresh, never-allocated address. -/
def freshAddr (h : Heap) : ℕ := maxAddr h + 1

/-- Allocated addresses of a heap. -/
def heapDom (h : Heap) : List Addr := h.map Prod.fst

/-- The fields of the `SystemData` instance (`controller.py` lines
11-33): a reference to the `global_info` dict, references to the
per-process record dicts of the `processes` list, and the `limit`. -/
structure SystemDataState where
  global_addr : Addr
  proc_addrs : List Addr
  limit : ℤ

/-- A store together with the heap its references point into. -/
structure World where
  heap : Heap
  sys : SystemDataState

/-- Allocate a list of fresh dict objects, returning their addresses in
order. -/
def allocList (h : Heap) : List PyDict → Heap × List Addr
  | [] => (h, [])
  | d :: ds =>
    let a := freshAddr h
    let r := allocList ((a, d) :: h) ds
    (r.1, a :: r.2)

/-- `SystemData.update` (`controller.py` lines 35-54): the model layer
builds a brand-new info dict and brand-new record dicts, and under the
lock both fields are swapped to point at them. -/
def SystemData.update (w : World) (infos : PyDict) (procs : List PyDict) :
    World :=
  let a0 := freshAddr w.heap
  let h0 := (a0, infos) :: w.heap
  let r := allocList h0 procs
  { heap := r.1
    sys := { w.sys with global_addr := a0, proc_addrs := r.2 } }

/-- `SystemData.get_snapshot` (`controller.py` lines 56-77): under the
lock, return `self.global_info.copy()` — a *fresh* dict object holding
the same (immutable) values — and `list(self.processes)` — a fresh
list holding the *same* record-dict references. -/
def SystemData.get_snapshot (w : World) : World × Addr × List Addr :=
  let g := heapGet w.heap w.sys.global_addr
  let a := freshAddr w.heap
  ({ w with heap := (a, g) :: w.heap }, a, w.sys.proc_addrs)

/-- The store's observable process list: the record dicts its
references point at. -/
def viewProcs (h : Heap) (addrs : List Addr) : List PyDict :=
  addrs.map (heapGet h)

/-- One component of the tuple returned by the snapshot operation.  The
spec's snapshot contract names five components; the extra constructors
exist so that the contract is expressible against the code. -/
inductive SnapComponent
  | globalInfo (g : PyDict)
  | processList (ps : List Addr)
  | filesystemInfo (fs : PyDict)
  | directoryListing (ds : List PyDict)
  | currentPath (p : List Char)
deriving DecidableEq

/-- Whether a component is one of the three the spec publishes beyond
the pair the code returns. -/
def SnapComponent.isBeyondPair : SnapComponent → Bool
  | .filesystemInfo _ => true
  | .directoryListing _ => true
  | .currentPath _ => true
  | _ => false

/-- The tuple returned by `get_snapshot` (`controller.py` line 77),
viewed as its ordered component list: exactly the global-info dict and
the process list. -/
def get_snapshot_components (w : World) : List SnapComponent :=
  let s := SystemData.get_snapshot w
  [.globalInfo (heapGet s.1.heap s.2.1), .processList s.2.2]

/-- `start_background_thread` (`controller.py` lines 101-134): always
stores the given `limit` into the `SystemData` instance; the
thread-spawning (guarded by `_thread_started`) has no effect on the
store's fields. -/
def start_background_thread (sys : SystemDataState) (limit : ℤ) :
    SystemDataState :=
  { sys with limit := limit }

end Controller

namespace App

/-! Shallow embedding of the process-count validation of `app.py`. -/

/-- `app.py` lines 84-120: the parsed integer `input` from the text
field is validated (`if new_num_processes_limit < 1:` keeps the
previous session value) and, on both script paths, pushed into the
store with `start_background_thread(interval=2, limit=...)`.
`session` is `st.session_state.num_processes_to_show`.  Returns the
updated store and the new session value. -/
def apply_limit_request (sys : Controller.SystemDataState)
    (session input : ℤ) : Controller.SystemDataState × ℤ :=
  let newLimit := if input < 1 then session else input
  (Controller.start_background_thread sys newLimit, newLimit)

end App

namespace Fixtures

/-! Concrete inputs used by the claim witnesses and counterexamples. -/

/-- A well-formed `/proc/diskstats` line with the given device name and
sector counters (10 fields; the name is field 2, sectors read field 5,
sectors written field 9). -/
def mkDiskLine (dev r w : String) : List (List Char) :=
  [strL "8", strL "0", strL dev, strL "0", strL "0", strL r,
   strL "0", strL "0", strL "0", strL w]

/-- The device set of the disk-filter claim. -/
def diskLines : List (List (List Char)) :=
  [mkDiskLine "sda" "100" "30", mkDiskLine "sda1" "7" "7",
   mkDiskLine "nvme0n1" "50" "20", mkDiskLine "nvme0n1p1" "9" "9",
   mkDiskLine "loop0" "11" "11"]

/-- A detail query against a pid with no `/proc/<pid>` directory. -/
def inpC8 : Model.DetailInput :=
  { dirExists := false
    statusLines := .ok []
    statTokens := none
    btime := 0
    lookupUser := fun _ => [] }

/-- A store with limit `10`. -/
def sysC9 : Controller.SystemDataState :=
  { global_addr := 0, proc_addrs := [], limit := 10 }

/-- A descriptor entry whose `readlink` fails with permission denied. -/
def eC10 : ModelSystem.FdEntry :=
  { name := strL "3", link := ModelSystem.LinkResult.permDenied }

/-- An fd directory containing only the permission-denied entry. -/
def stC10 : ModelSystem.FdDirState :=
  { isDir := true, entries := Except.ok [eC10] }

/-- A world whose store publishes one global-info dict (address 0) and
one process record dict (address 1). -/
def wC1 : Controller.World :=
  { heap := [(0, [("CPU (%)", Controller.PyVal.int 3)]),
             (1, [("pid", Controller.PyVal.int 1),
                  ("name", Controller.PyVal.str (strL "init"))])]
    sys := { global_addr := 0, proc_addrs := [1], limit := 10 } }

/-- A second, independent world of the same shape for the snapshot
component-count claim. -/
def wC2 : Controller.World :=
  { heap := [(0, [("CPU (%)", Controller.PyVal.int 7)]),
             (1, [("pid", Controller.PyVal.int 42)])]
    sys := { global_addr := 0, proc_addrs := [1], limit := 10 } }

/-- A poll that observes no processes. -/
def inpC6 : Model.ProcInput :=
  { now := 1, samples := [], memTotalRead := none, lookupUser := fun _ => [] }

/-- A cache still holding entries for the vanished pid `99`. -/
def cacheC6 : Model.Cache :=
  { prev_sys_ocioso := 0
    prev_sys_total := 0
    prev_times := [(99, 5)]
    prev_timestamp := 0
    mem_total_kb := some 1000
    prev_disk_stats := none
    prev_disk_io_timestamp := 0
    prev_proc_io_stats := [(99, (1, 2))] }

/-- A `/proc/<pid>/stat` token list with the name and the `utime` and
`stime` fields (indices 1, 13, 14) set. -/
def mkStatToks (pid name utime stime : String) : List (List Char) :=
  [strL pid, strL name] ++ List.replicate 11 (strL "0") ++
    [strL utime, strL stime]

/-- Stat tokens of the first-seen pid 7: 300 + 200 cumulative ticks. -/
def statToksC3 : List (List Char) := mkStatToks "7" "(bash)" "300" "200"

/-- Status lines of pid 7. -/
def statusLnsC3 : List (List Char) :=
  [strL "Uid: 0 0 0 0", strL "VmRSS: 100 kB", strL "Threads: 2"]

/-- Io lines of pid 7. -/
def ioLnsC3 : List (List Char) :=
  [strL "read_bytes: 1000", strL "write_bytes: 2000"]

/-- The first-seen process sample of the delta-rate claim. -/
def sampleC3 : Model.ProcSample :=
  { pid := 7, statTokens := .ok statToksC3, statusLines := .ok statusLnsC3,
    ioLines := some ioLnsC3 }

/-- A cache with no prior entry for any pid. -/
def cacheC3 : Model.Cache :=
  { prev_sys_ocioso := 0, prev_sys_total := 0, prev_times := [],
    prev_timestamp := 100, mem_total_kb := some 1000, prev_disk_stats := none,
    prev_disk_io_timestamp := 100, prev_proc_io_stats := [] }

/-- A poll one second after the previous one, observing only pid 7. -/
def inpC3 : Model.ProcInput :=
  { now := 101, samples := [sampleC3], memTotalRead := none,
    lookupUser := fun _ => strL "root" }

/-- A first-sample global poll: the previous system-CPU entry is the
initial `0`. -/
def cacheC3g : Model.Cache :=
  { prev_sys_ocioso := 0, prev_sys_total := 0, prev_times := [],
    prev_timestamp := 0, mem_total_kb := none, prev_disk_stats := none,
    prev_disk_io_timestamp := 0, prev_proc_io_stats := [] }

/-- Global input whose `/proc/stat` line has 160 non-idle and 40 idle
ticks. -/
def inpC3g : Model.GlobalInput :=
  { now := 1, statFields := some [100, 20, 40, 30, 10, 0, 0, 0],
    meminfo := none, procThreads := [], diskLines := [] }

/-- A cache holding the previous system-CPU sample (idle 100 of 100). -/
def cacheC4 : Model.Cache :=
  { prev_sys_ocioso := 100, prev_sys_total := 100, prev_times := [],
    prev_timestamp := 0, mem_total_kb := some 1000, prev_disk_stats := none,
    prev_disk_io_timestamp := 200, prev_proc_io_stats := [] }

/-- An adversarial next sample: the idle counter regressed to 50 while
the total advanced to 200. -/
def inpC4 : Model.GlobalInput :=
  { now := 200, statFields := some [150, 0, 0, 50, 0, 0, 0, 0],
    meminfo := some [("MemTotal", 1000), ("MemAvailable", 500)],
    procThreads := [], diskLines := [] }

/-- A well-behaved global sample for the C4 witness. -/
def inpC4w : Model.GlobalInput :=
  { now := 200, statFields := some [150, 0, 0, 50, 0, 0, 0, 0],
    meminfo := some [("MemTotal", 1000), ("MemAvailable", 400)],
    procThreads := [], diskLines := [] }

/-- A previous sample below the C4 witness sample in both counters. -/
def cacheC4w : Model.Cache :=
  { prev_sys_ocioso := 40, prev_sys_total := 100, prev_times := [(7, 20)],
    prev_timestamp := 0, mem_total_kb := some 1000, prev_disk_stats := none,
    prev_disk_io_timestamp := 200, prev_proc_io_stats := [] }

/-- A process sample with 50 cumulative ticks for the C4 witness. -/
def sampleC4w : Model.ProcSample :=
  { pid := 7, statTokens := .ok (mkStatToks "7" "(w)" "50" "0"),
    statusLines := .ok statusLnsC3, ioLines := none }

/-- Process samples of the ordering claim: cumulative CPU times 5 s,
20 s and 1 s, with per-cycle cpu_percent 500, 100 and 1 (so that
ordering by percent would differ). -/
def sC5a : Model.ProcSample :=
  { pid := 1, statTokens := .ok (mkStatToks "1" "(a)" "500" "0"),
    statusLines := .ok [], ioLines := none }

/-- Second ordering-claim sample (20 s cumulative). -/
def sC5b : Model.ProcSample :=
  { pid := 2, statTokens := .ok (mkStatToks "2" "(b)" "2000" "0"),
    statusLines := .ok [], ioLines := none }

/-- Third ordering-claim sample (1 s cumulative). -/
def sC5c : Model.ProcSample :=
  { pid := 3, statTokens := .ok (mkStatToks "3" "(c)" "100" "0"),
    statusLines := .ok [], ioLines := none }

/-- Previous ticks chosen so the per-cycle percent ranking (500, 100,
1) disagrees with the cumulative-time ranking (20, 5, 1). -/
def cacheC5 : Model.Cache :=
  { prev_sys_ocioso := 0, prev_sys_total := 0,
    prev_times := [(1, 0), (2, 1900), (3, 99)],
    prev_timestamp := 100, mem_total_kb := some 1000, prev_disk_stats := none,
    prev_disk_io_timestamp := 100, prev_proc_io_stats := [] }

/-- The ordering-claim poll observing the three samples. -/
def inpC5 : Model.ProcInput :=
  { now := 101, samples := [sC5a, sC5b, sC5c], memTotalRead := none,
    lookupUser := fun _ => strL "x" }

end Fixtures

/-! ## Helper lemmas -/

section DictLemmas

variable {κ : Type} [DecidableEq κ] {α : Type}

theorem dget_eq_none_of_not_mem {d : List (κ × α)} {j : κ}
    (h : j ∉ dkeys d) : dget d j = none := by
  induction d with
  | nil => rfl
  | cons kv t ih =>
    obtain ⟨k1, v1⟩ := kv
    simp only [dkeys, List.map_cons, List.mem_cons] at h
    push_neg at h
    simp only [dget]
    rw [if_neg (fun he => h.1 he.symm)]
    exact ih (by simpa [dkeys] using h.2)

theorem dget_map_replace {d : List (κ × α)} {j : κ} (v : α)
    (h : j ∈ dkeys d) :
    dget (d.map (fun kv => if kv.1 = j then (j, v) else kv)) j = some v := by
  induction d with
  | nil => simp [dkeys] at h
  | cons kv t ih =>
    obtain ⟨k1, v1⟩ := kv
    by_cases hk : k1 = j
    · simp only [List.map_cons]
      rw [show (if (k1, v1).1 = j then (j, v) else (k1, v1)) = (j, v) from
        if_pos hk]
      simp [dget]
    · simp only [dkeys, List.map_cons, List.mem_cons] at h
      rcases h with h | h
      · exact absurd h.symm hk
      · simp only [List.map_cons]
        rw [show (if (k1, v1).1 = j then (j, v) else (k1, v1)) = (k1, v1) from
          if_neg hk]
        simp only [dget]
        rw [if_neg hk]
        exact ih h

theorem dget_append_right {d : List (κ × α)} {j : κ}
    (h : j ∉ dkeys d) (l : List (κ × α)) :
    dget (d ++ l) j = dget l j := by
  induction d with
  | nil => rfl
  | cons kv t ih =>
    obtain ⟨k1, v1⟩ := kv
    simp only [dkeys, List.map_cons, List.mem_cons] at h
    push_neg at h
    simp only [List.cons_append, dget]
    rw [if_neg (fun he => h.1 he.symm)]
    exact ih (by simpa [dkeys] using h.2)

theorem dget_dinsert_self (d : List (κ × α)) (j : κ) (v : α) :
    dget (dinsert d j v) j = some v := by
  unfold dinsert
  by_cases hmem : d.any (fun kv => decide (kv.1 = j)) = true
  · rw [if_pos hmem]
    refine dget_map_replace v ?_
    simp only [List.any_eq_true, decide_eq_true_eq] at hmem
    obtain ⟨kv, hkv, hk⟩ := hmem
    exact List.mem_map.2 ⟨kv, hkv, hk⟩
  · rw [if_neg hmem]
    have hnot : j ∉ dkeys d := by
      intro hj
      apply hmem
      simp only [dkeys, List.mem_map] at hj
      obtain ⟨kv, hkv, hk⟩ := hj
      simp only [List.any_eq_true, decide_eq_true_eq]
      exact ⟨kv, hkv, hk⟩
    rw [dget_append_right hnot]
    simp [dget]

theorem mem_dkeys_derase {d : List (κ × α)} {k j : κ}
    (h : k ∈ dkeys (derase d j)) : k ∈ dkeys d ∧ k ≠ j := by
  simp only [derase, dkeys, List.mem_map] at h
  obtain ⟨kv, hkv, hk⟩ := h
  rw [List.mem_filter] at hkv
  refine ⟨List.mem_map.2 ⟨kv, hkv.1, hk⟩, ?_⟩
  have := hkv.2
  simp only [decide_eq_true_eq] at this
  exact hk ▸ this

theorem not_mem_dkeys_derase_of_not_mem {d : List (κ × α)} {k j : κ}
    (h : k ∉ dkeys d) : k ∉ dkeys (derase d j) := by
  intro hc
  exact h (mem_dkeys_derase hc).1

theorem not_mem_dkeys_derase_self (d : List (κ × α)) (k : κ) :
    k ∉ dkeys (derase d k) := by
  intro hc
  exact (mem_dkeys_derase hc).2 rfl

theorem not_mem_dkeys_foldl_derase {l : List κ} {d : List (κ × α)} {k : κ}
    (h : k ∉ dkeys d) :
    k ∉ dkeys (l.foldl (fun acc j => derase acc j) d) := by
  induction l generalizing d with
  | nil => exact h
  | cons a l ih =>
    exact ih (not_mem_dkeys_derase_of_not_mem h)

theorem not_mem_dkeys_foldl_derase_of_mem {l : List κ} {d : List (κ × α)}
    {k : κ} (h : k ∈ l) :
    k ∉ dkeys (l.foldl (fun acc j => derase acc j) d) := by
  induction l generalizing d with
  | nil => cases h
  | cons a l ih =>
    simp only [List.foldl_cons]
    rcases List.mem_cons.1 h with rfl | h
    · exact not_mem_dkeys_foldl_derase (not_mem_dkeys_derase_self d k)
    · exact ih h

theorem not_mem_dkeys_evict {d : List (ℕ × α)} {active : List ℕ} {k : ℕ}
    (h : k ∉ active) : k ∉ dkeys (Model.evict d active) := by
  unfold Model.evict
  by_cases hk : k ∈ dkeys d
  · refine not_mem_dkeys_foldl_derase_of_mem ?_
    exact List.mem_filter.2 ⟨hk, by simpa using h⟩
  · exact not_mem_dkeys_foldl_derase hk

end DictLemmas

section Round2Lemmas

theorem round_mono_q {x y : ℚ} (h : x ≤ y) : round x ≤ round y := by
  rw [round_eq, round_eq]
  exact Int.floor_le_floor (by linarith)

theorem round2_nonneg {q : ℚ} (h : 0 ≤ q) : 0 ≤ round2 q := by
  unfold round2
  have h1 : (0 : ℤ) ≤ round (q * 100) := by
    have := round_mono_q (by linarith : (0 : ℚ) ≤ q * 100)
    simpa using this
  positivity

theorem round2_le_100 {q : ℚ} (h : q ≤ 100) : round2 q ≤ 100 := by
  unfold round2
  have h2 : round (q * 100) ≤ round ((10000 : ℚ)) := round_mono_q (by linarith)
  have h3 : round ((10000 : ℚ)) = 10000 := by
    have : round (((10000 : ℤ) : ℚ)) = (10000 : ℤ) := round_intCast 10000
    exact_mod_cast this
  rw [h3] at h2
  have h4 : ((round (q * 100) : ℤ) : ℚ) ≤ 10000 := by exact_mod_cast h2
  linarith

theorem round2_zero : round2 0 = 0 := by
  unfold round2
  norm_num

end Round2Lemmas

section SortLemmas

theorem mem_insertByCpuTime {r x : Model.PRecord} {l : List Model.PRecord}
    (h : x ∈ Model.insertByCpuTime r l) : x = r ∨ x ∈ l := by
  induction l with
  | nil => simpa [Model.insertByCpuTime] using h
  | cons a l ih =>
    simp only [Model.insertByCpuTime] at h
    by_cases hc : a.cpu_time < r.cpu_time
    · rw [if_pos hc] at h
      rcases List.mem_cons.1 h with rfl | h
      · exact Or.inl rfl
      · exact Or.inr h
    · rw [if_neg hc] at h
      rcases List.mem_cons.1 h with rfl | h
      · exact Or.inr (List.mem_cons_self _ _)
      · rcases ih h with h | h
        · exact Or.inl h
        · exact Or.inr (List.mem_cons_of_mem _ h)

theorem sorted_insertByCpuTime {r : Model.PRecord} {l : List Model.PRecord}
    (hs : l.Pairwise (fun a b => b.cpu_time ≤ a.cpu_time)) :
    (Model.insertByCpuTime r l).Pairwise
      (fun a b => b.cpu_time ≤ a.cpu_time) := by
  induction l with
  | nil => simp [Model.insertByCpuTime]
  | cons a l ih =>
    rw [List.pairwise_cons] at hs
    obtain ⟨ha, hl⟩ := hs
    simp only [Model.insertByCpuTime]
    by_cases hc : a.cpu_time < r.cpu_time
    · rw [if_pos hc]
      refine List.Pairwise.cons ?_ (List.Pairwise.cons ha hl)
      intro b hb
      rcases List.mem_cons.1 hb with rfl | hb
      · exact le_of_lt hc
      · exact le_trans (ha b hb) (le_of_lt hc)
    · rw [if_neg hc]
      refine List.Pairwise.cons ?_ (ih hl)
      intro b hb
      rcases mem_insertByCpuTime hb with rfl | hb
      · exact le_of_not_lt hc
      · exact ha b hb

theorem sorted_sortByCpuTimeDesc (l : List Model.PRecord) :
    (Model.sortByCpuTimeDesc l).Pairwise
      (fun a b => b.cpu_time ≤ a.cpu_time) := by
  induction l with
  | nil => simp [Model.sortByCpuTimeDesc]
  | cons a l ih => exact sorted_insertByCpuTime ih

end SortLemmas

section HeapLemmas

theorem mem_le_foldr_max {l : List ℕ} {a : ℕ} (h : a ∈ l) :
    a ≤ l.foldr max 0 := by
  induction l with
  | nil => cases h
  | cons x t ih =>
    rcases List.mem_cons.1 h with rfl | h
    · exact le_max_left _ _
    · exact le_trans (ih h) (le_max_right _ _)

theorem mem_heapDom_le_maxAddr {h : Controller.Heap} {a : Controller.Addr}
    (ha : a ∈ Controller.heapDom h) : a ≤ Controller.maxAddr h :=
  mem_le_foldr_max ha

theorem ne_freshAddr_of_mem {h : Controller.Heap} {a : Controller.Addr}
    (ha : a ∈ Controller.heapDom h) : a ≠ Controller.freshAddr h := by
  have h1 := mem_heapDom_le_maxAddr ha
  intro he
  rw [he] at h1
  unfold Controller.freshAddr at h1
  exact Nat.not_succ_le_self _ h1

theorem heapGet_cons_self (h : Controller.Heap) (a : Controller.Addr)
    (d : Controller.PyDict) : Controller.heapGet ((a, d) :: h) a = d := by
  simp [Controller.heapGet, dget]

theorem heapGet_cons_ne {b a : Controller.Addr} (hne : b ≠ a)
    (h : Controller.Heap) (d : Controller.PyDict) :
    Controller.heapGet ((a, d) :: h) b = Controller.heapGet h b := by
  unfold Controller.heapGet
  simp only [dget]
  rw [if_neg (fun he => hne he.symm)]

theorem heapGet_heapSet_ne {b a : Controller.Addr} (hne : b ≠ a)
    (h : Controller.Heap) (k : String) (v : Controller.PyVal) :
    Controller.heapGet (Controller.heapSet h a k v) b =
      Controller.heapGet h b := by
  unfold Controller.heapGet Controller.heapSet
  induction h with
  | nil => rfl
  | cons x t ih =>
    obtain ⟨x1, x2⟩ := x
    by_cases hx : x1 = a
    · simp only [List.map_cons]
      rw [show (if (x1, x2).1 = a then (a, dinsert x2 k v) else (x1, x2)) =
        (a, dinsert x2 k v) from if_pos hx]
      simp only [dget]
      rw [if_neg (fun he => hne he.symm), if_neg (fun he => hne (hx ▸ he.symm))]
      exact ih
    · simp only [List.map_cons]
      rw [show (if (x1, x2).1 = a then (a, dinsert x2 k v) else (x1, x2)) =
        (x1, x2) from if_neg hx]
      simp only [dget]
      by_cases hxb : x1 = b
      · rw [if_pos hxb, if_pos hxb]
      · rw [if_neg hxb, if_neg hxb]
        exact ih

theorem mem_heapDom_allocList {ds : List Controller.PyDict}
    {h : Controller.Heap} {b : Controller.Addr}
    (hb : b ∈ Controller.heapDom h) :
    b ∈ Controller.heapDom (Controller.allocList h ds).1 := by
  induction ds generalizing h with
  | nil => exact hb
  | cons d ds ih =>
    simp only [Controller.allocList]
    exact ih (List.mem_cons_of_mem _ hb)

theorem heapGet_allocList_of_mem {ds : List Controller.PyDict}
    {h : Controller.Heap} {b : Controller.Addr}
    (hb : b ∈ Controller.heapDom h) :
    Controller.heapGet (Controller.allocList h ds).1 b =
      Controller.heapGet h b := by
  induction ds generalizing h with
  | nil => rfl
  | cons d ds ih =>
    simp only [Controller.allocList]
    have hbne : b ≠ Controller.freshAddr h := ne_freshAddr_of_mem hb
    calc Controller.heapGet
          (Controller.allocList ((Controller.freshAddr h, d) :: h) ds).1 b
        = Controller.heapGet ((Controller.freshAddr h, d) :: h) b :=
          ih (List.mem_cons_of_mem _ hb)
      _ = Controller.heapGet h b := heapGet_cons_ne hbne h d

theorem mem_heapDom_of_allocList_addr {ds : List Controller.PyDict}
    {h : Controller.Heap} {a : Controller.Addr}
    (ha : a ∈ (Controller.allocList h ds).2) :
    a ∈ Controller.heapDom (Controller.allocList h ds).1 := by
  induction ds generalizing h with
  | nil => cases ha
  | cons d ds ih =>
    simp only [Controller.allocList] at ha ⊢
    rcases List.mem_cons.1 ha with rfl | ha
    · exact mem_heapDom_allocList (List.mem_cons_self _ _)
    · exact ih ha

theorem viewProcs_allocList (h : Controller.Heap)
    (ds : List Controller.PyDict) :
    Controller.viewProcs (Controller.allocList h ds).1
      (Controller.allocList h ds).2 = ds := by
  induction ds generalizing h with
  | nil => rfl
  | cons d ds ih =>
    simp only [Controller.allocList, Controller.viewProcs, List.map_cons]
    have h0 : Controller.freshAddr h ∈
        Controller.heapDom ((Controller.freshAddr h, d) :: h) := by
      simp [Controller.heapDom]
    have h1 : Controller.heapGet
        (Controller.allocList ((Controller.freshAddr h, d) :: h) ds).1
        (Controller.freshAddr h) = d := by
      rw [heapGet_allocList_of_mem h0]
      exact heapGet_cons_self h (Controller.freshAddr h) d
    have h2 := ih ((Controller.freshAddr h, d) :: h)
    simp only [Controller.viewProcs] at h2
    rw [h1, h2]

theorem viewProcs_cons_fresh {h : Controller.Heap} {as : List Controller.Addr}
    (g : Controller.PyDict)
    (hsub : ∀ a ∈ as, a ∈ Controller.heapDom h) :
    Controller.viewProcs ((Controller.freshAddr h, g) :: h) as =
      Controller.viewProcs h as := by
  unfold Controller.viewProcs
  induction as with
  | nil => rfl
  | cons a as ih =>
    simp only [List.map_cons]
    rw [heapGet_cons_ne (ne_freshAddr_of_mem (hsub a (List.mem_cons_self _ _))) h g]
    rw [ih (fun b hb => hsub b (List.mem_cons_of_mem _ hb))]

end HeapLemmas

section OpenFileLemmas

theorem mem_foldr_processFd {l : List ModelSystem.FdEntry}
    {e : ModelSystem.FdEntry} {r : ModelSystem.OpenFileRec}
    (he : e ∈ l) (hr : r ∈ ModelSystem.processFd e) :
    r ∈ l.foldr (fun e acc => ModelSystem.processFd e ++ acc) [] := by
  induction l with
  | nil => cases he
  | cons a l ih =>
    simp only [List.foldr_cons]
    rcases List.mem_cons.1 he with rfl | he
    · exact List.mem_append_left _ hr
    · exact List.mem_append_right _ (ih he)

end OpenFileLemmas

section PercentBoundLemmas

theorem getD_nonneg_of_forall {l : List ℤ} (h : ∀ x ∈ l, 0 ≤ x) (i : ℕ) :
    0 ≤ l.getD i 0 := by
  induction l generalizing i with
  | nil => simp [List.getD]
  | cons a t ih =>
    cases i with
    | zero => simpa using h a (List.mem_cons_self _ _)
    | succ n =>
      simp only [List.getD_cons_succ]
      exact ih (fun x hx => h x (List.mem_cons_of_mem _ hx)) n

theorem parts_le_sum {l : List ℤ} (h : ∀ x ∈ l, 0 ≤ x) (h8 : 8 ≤ l.length) :
    l.getD 0 0 + l.getD 1 0 + l.getD 2 0 + l.getD 5 0 + l.getD 6 0 +
      l.getD 7 0 ≤ l.sum ∧
    l.getD 3 0 ≤ l.sum := by
  rcases l with _|⟨a,_|⟨b,_|⟨c,_|⟨d,_|⟨e,_|⟨f,_|⟨g,_|⟨k,t⟩⟩⟩⟩⟩⟩⟩⟩ <;>
    simp only [List.length_nil, List.length_cons] at h8 <;>
    first
    | omega
    | · simp only [List.getD_cons_zero, List.getD_cons_succ, List.sum_cons]
        have ht : 0 ≤ t.sum := List.sum_nonneg (fun x hx => h x (by simp [hx]))
        have ha : 0 ≤ a := h a (by simp)
        have hb : 0 ≤ b := h b (by simp)
        have hc : 0 ≤ c := h c (by simp)
        have hd : 0 ≤ d := h d (by simp)
        have he : 0 ≤ e := h e (by simp)
        have hf : 0 ≤ f := h f (by simp)
        have hg : 0 ≤ g := h g (by simp)
        have hk : 0 ≤ k := h k (by simp)
        constructor <;> linarith

theorem cpuSection_bounds (fields : List ℤ) (prevO prevT : ℤ)
    (h1 : ∀ x ∈ fields, 0 ≤ x)
    (h2 : prevO ≤ fields.getD 3 0 + fields.getD 4 0)
    (h3 : fields.getD 3 0 + fields.getD 4 0 - prevO ≤ fields.sum - prevT) :
    0 ≤ (Model.cpuSection (some fields) prevO prevT).used ∧
    (Model.cpuSection (some fields) prevO prevT).used ≤ 100 ∧
    0 ≤ (Model.cpuSection (some fields) prevO prevT).idle ∧
    (Model.cpuSection (some fields) prevO prevT).idle ≤ 100 := by
  simp only [Model.cpuSection]
  by_cases h5 : 5 ≤ fields.length
  · rw [if_pos h5]
    by_cases hdelta : prevT > 0 ∧ fields.sum > prevT
    · rw [if_pos hdelta]
      have htd : (0 : ℤ) < fields.sum - prevT := by omega
      rw [if_pos htd, if_pos htd]
      have hod : (0 : ℤ) ≤ fields.getD 3 0 + fields.getD 4 0 - prevO := by omega
      have hq0 : (0 : ℚ) ≤
          ((fields.getD 3 0 + fields.getD 4 0 - prevO : ℤ) : ℚ) /
            ((fields.sum - prevT : ℤ) : ℚ) :=
        div_nonneg (by exact_mod_cast hod) (by exact_mod_cast le_of_lt htd)
      have hq1 : ((fields.getD 3 0 + fields.getD 4 0 - prevO : ℤ) : ℚ) /
            ((fields.sum - prevT : ℤ) : ℚ) ≤ 1 := by
        rw [div_le_one (by exact_mod_cast htd)]
        exact_mod_cast h3
      refine ⟨by dsimp only; linarith, by dsimp only; linarith,
        by dsimp only; linarith, by dsimp only; linarith⟩
    · rw [if_neg hdelta]
      by_cases h8 : 8 ≤ fields.length
      · rw [if_pos h8]
        by_cases hsum : fields.sum > 0
        · rw [if_pos hsum, if_pos hsum]
          obtain ⟨hparts, hidle⟩ := parts_le_sum h1 h8
          have hni : (0 : ℤ) ≤ fields.getD 0 0 + fields.getD 1 0 +
              fields.getD 2 0 + fields.getD 5 0 + fields.getD 6 0 +
              fields.getD 7 0 := by
            have g0 := getD_nonneg_of_forall h1 0
            have g1 := getD_nonneg_of_forall h1 1
            have g2 := getD_nonneg_of_forall h1 2
            have g5 := getD_nonneg_of_forall h1 5
            have g6 := getD_nonneg_of_forall h1 6
            have g7 := getD_nonneg_of_forall h1 7
            linarith
          have hq0 : (0 : ℚ) ≤ ((fields.getD 0 0 + fields.getD 1 0 +
              fields.getD 2 0 + fields.getD 5 0 + fields.getD 6 0 +
              fields.getD 7 0 : ℤ) : ℚ) / ((fields.sum : ℤ) : ℚ) :=
            div_nonneg (by exact_mod_cast hni) (by exact_mod_cast le_of_lt hsum)
          have hq1 : ((fields.getD 0 0 + fields.getD 1 0 +
              fields.getD 2 0 + fields.getD 5 0 + fields.getD 6 0 +
              fields.getD 7 0 : ℤ) : ℚ) / ((fields.sum : ℤ) : ℚ) ≤ 1 := by
            rw [div_le_one (by exact_mod_cast hsum)]
            exact_mod_cast hparts
          have hq2 : (0 : ℚ) ≤ ((fields.getD 3 0 : ℤ) : ℚ) /
              ((fields.sum : ℤ) : ℚ) :=
            div_nonneg (by exact_mod_cast getD_nonneg_of_forall h1 3)
              (by exact_mod_cast le_of_lt hsum)
          have hq3 : ((fields.getD 3 0 : ℤ) : ℚ) /
              ((fields.sum : ℤ) : ℚ) ≤ 1 := by
            rw [div_le_one (by exact_mod_cast hsum)]
            exact_mod_cast hidle
          refine ⟨by dsimp only; linarith, by dsimp only; linarith,
            by dsimp only; linarith, by dsimp only; linarith⟩
        · rw [if_neg hsum, if_neg hsum]
          refine ⟨le_refl 0, by norm_num, le_refl 0, by norm_num⟩
      · rw [if_neg h8]
        refine ⟨le_refl 0, by norm_num, le_refl 0, by norm_num⟩
  · rw [if_neg h5]
    refine ⟨le_refl 0, by norm_num, le_refl 0, by norm_num⟩

theorem memSection_bounds (mi : List (String × ℤ))
    (h0 : 0 ≤ (Model.lookupMem mi "MemAvailable").getD
      ((Model.lookupMem mi "MemFree").getD 0))
    (h1 : (Model.lookupMem mi "MemAvailable").getD
      ((Model.lookupMem mi "MemFree").getD 0) ≤
      (Model.lookupMem mi "MemTotal").getD 1) :
    0 ≤ (Model.memSection (some mi)).used_pct ∧
    (Model.memSection (some mi)).used_pct ≤ 100 ∧
    0 ≤ (Model.memSection (some mi)).free_pct ∧
    (Model.memSection (some mi)).free_pct ≤ 100 := by
  simp only [Model.memSection]
  by_cases hpos : (Model.lookupMem mi "MemTotal").getD 1 > 0
  · rw [if_pos hpos, if_pos hpos]
    have hq0 : (0 : ℚ) ≤
        (((Model.lookupMem mi "MemAvailable").getD
          ((Model.lookupMem mi "MemFree").getD 0) : ℤ) : ℚ) /
          (((Model.lookupMem mi "MemTotal").getD 1 : ℤ) : ℚ) :=
      div_nonneg (by exact_mod_cast h0) (by exact_mod_cast le_of_lt hpos)
    have hq1 : (((Model.lookupMem mi "MemAvailable").getD
          ((Model.lookupMem mi "MemFree").getD 0) : ℤ) : ℚ) /
          (((Model.lookupMem mi "MemTotal").getD 1 : ℤ) : ℚ) ≤ 1 := by
      rw [div_le_one (by exact_mod_cast hpos)]
      exact_mod_cast h1
    refine ⟨by linarith, by linarith, by linarith, by linarith⟩
  · rw [if_neg hpos, if_neg hpos]
    refine ⟨le_refl 0, by norm_num, le_refl 0, by norm_num⟩

theorem processOne_pct_bounds
    (lookupUser : ℤ → List Char) (elapsed : ℚ) (memTotal : ℤ)
    (s : Model.ProcSample) (c : Model.Cache)
    (tokens : List (List Char)) (name : List Char) (utime stime : ℤ)
    (lines : List (List Char)) (sd : Model.StatusData)
    (hel : 0 < elapsed) (hmt : 0 < memTotal)
    (h1 : s.statTokens = .ok tokens)
    (h2 : Model.parseStat tokens = some (name, utime, stime))
    (h3 : s.statusLines = .ok lines)
    (h4 : Model.scanStatus lines = some sd)
    (hticks : ((utime + stime - dgetD c.prev_times s.pid 0 : ℤ) : ℚ) ≤
      elapsed * ((Model.CLK_TCK : ℤ) : ℚ))
    (hm0 : 0 ≤ sd.memKb) (hm1 : sd.memKb ≤ memTotal) :
    ∃ r : Model.PRecord,
      (Model.processOne lookupUser elapsed memTotal s c).1 = some r ∧
      0 ≤ r.cpu_percent ∧ r.cpu_percent ≤ 100 ∧
      0 ≤ r.memory_percent ∧ r.memory_percent ≤ 100 := by
  have hC : ((Model.CLK_TCK : ℤ) : ℚ) = 100 := by norm_num [Model.CLK_TCK]
  simp only [Model.processOne, h1, h2, h3, h4]
  refine ⟨_, rfl, ?_, ?_, ?_, ?_⟩
  · exact round2_nonneg (le_max_left 0 _)
  · apply round2_le_100
    apply max_le (by norm_num)
    rw [hC] at hticks ⊢
    have hq : ((utime + stime - dgetD c.prev_times s.pid 0 : ℤ) : ℚ) /
        (100 * elapsed) ≤ 1 := by
      rw [div_le_one (by positivity)]
      linarith
    rw [div_div]
    linarith
  · apply round2_nonneg
    rw [if_pos hmt]
    positivity
  · apply round2_le_100
    rw [if_pos hmt]
    have hq : ((sd.memKb : ℤ) : ℚ) / ((memTotal : ℤ) : ℚ) ≤ 1 := by
      rw [div_le_one (by exact_mod_cast hmt)]
      exact_mod_cast hm1
    linarith

theorem processOne_first_observation
    (lookupUser : ℤ → List Char) (elapsed : ℚ) (memTotal : ℤ)
    (s : Model.ProcSample) (c : Model.Cache)
    (tokens : List (List Char)) (name : List Char) (utime stime : ℤ)
    (lines : List (List Char)) (sd : Model.StatusData)
    (ioLs : List (List Char)) (curR curW : ℤ)
    (h1 : s.statTokens = .ok tokens)
    (h2 : Model.parseStat tokens = some (name, utime, stime))
    (h3 : s.statusLines = .ok lines)
    (h4 : Model.scanStatus lines = some sd)
    (h5 : s.ioLines = some ioLs)
    (h6 : Model.scanIo ioLs = some (curR, curW))
    (h7 : s.pid ∉ dkeys c.prev_times)
    (h8 : s.pid ∉ dkeys c.prev_proc_io_stats) :
    ∃ r : Model.PRecord,
      (Model.processOne lookupUser elapsed memTotal s c).1 = some r ∧
      r.io_read_bps = 0 ∧ r.io_write_bps = 0 ∧
      r.cpu_percent = round2 (max 0 ((((utime + stime : ℤ) : ℚ) /
        ((Model.CLK_TCK : ℤ) : ℚ)) / elapsed * 100)) ∧
      dget (Model.processOne lookupUser elapsed memTotal s c).2.prev_times
        s.pid = some (utime + stime) ∧
      dget (Model.processOne lookupUser elapsed memTotal
        s c).2.prev_proc_io_stats s.pid = some (curR, curW) := by
  have hp : dget c.prev_times s.pid = none := dget_eq_none_of_not_mem h7
  have hq : dget c.prev_proc_io_stats s.pid = none := dget_eq_none_of_not_mem h8
  simp only [Model.processOne, h1, h2, h3, h4, h5, h6, Option.bind,
    dgetD, hp, hq, Option.getD]
  refine ⟨_, rfl, ?_, ?_, ?_, ?_, ?_⟩
  · simp [round2_zero]
  · simp [round2_zero]
  · norm_num
  · exact dget_dinsert_self _ _ _
  · exact dget_dinsert_self _ _ _

theorem cpuSection_first_sample_instant (fields : List ℤ) (prevO : ℤ)
    (h8 : 8 ≤ fields.length) (hsum : 0 < fields.sum) :
    (Model.cpuSection (some fields) prevO 0).used =
      ((fields.getD 0 0 + fields.getD 1 0 + fields.getD 2 0 +
        fields.getD 5 0 + fields.getD 6 0 + fields.getD 7 0 : ℤ) : ℚ) /
        ((fields.sum : ℤ) : ℚ) * 100 := by
  simp only [Model.cpuSection]
  rw [if_pos (by omega : 5 ≤ fields.length)]
  rw [if_neg (by omega : ¬((0 : ℤ) > 0 ∧ fields.sum > 0))]
  rw [if_pos h8, if_pos hsum]

end PercentBoundLemmas

/-! ## Claim theorems -/

/-- C7 (confirmed): the disk-stats relevance filter accepts exactly the
whole physical devices of the set {sda, sda1, nvme0n1, nvme0n1p1,
loop0}, and the aggregation sums only the sector counters of `sda` and
`nvme0n1`, converted with the fixed 512-byte sector size. -/
theorem C7_disk_filter_whole_devices :
    Model.isRelevantDevice (strL "sda") = true ∧
    Model.isRelevantDevice (strL "sda1") = false ∧
    Model.isRelevantDevice (strL "nvme0n1") = true ∧
    Model.isRelevantDevice (strL "nvme0n1p1") = false ∧
    Model.isRelevantDevice (strL "loop0") = false ∧
    Model.diskAggregate Fixtures.diskLines =
      ((100 + 50) * 512, (30 + 20) * 512) := by
  decide

/-- C8 (confirmed): `get_process_details` on a pid whose `/proc/<pid>`
directory does not exist returns the explicit not-found result `None`;
the embedding is total, every exception path of the source returning
`None` as well. -/
theorem C8_details_not_found_returns_none :
    ∀ (inp : Model.DetailInput) (pid : ℕ),
    inp.dirExists = false → Model.get_process_details inp pid = none := by
  intro inp pid h
  simp [Model.get_process_details, h]

/-- Witness for C8 at a concrete absent pid. -/
theorem C8_details_not_found_returns_none_witness :
    Fixtures.inpC8.dirExists = false ∧
    Model.get_process_details Fixtures.inpC8 4242 = none :=
  ⟨rfl, C8_details_not_found_returns_none Fixtures.inpC8 4242 rfl⟩

/-- C9 (confirmed): a process-limit request of `0` or a negative
integer is rejected by the `app.py` validation (`< 1` keeps the
previous session value), so the store's `limit` — kept in sync with
the session value by every script run — retains its previous value. -/
theorem C9_nonpositive_limit_rejected :
    ∀ (sys : Controller.SystemDataState) (session input : ℤ),
    session = sys.limit → input ≤ 0 →
    (App.apply_limit_request sys session input).1.limit = sys.limit ∧
    (App.apply_limit_request sys session input).2 = sys.limit := by
  intro sys session input hsess hinp
  have hlt : input < 1 := by omega
  simp [App.apply_limit_request, Controller.start_background_thread,
    if_pos hlt, hsess]

/-- Witness for C9 with limit request `0` against a store at limit 10. -/
theorem C9_nonpositive_limit_rejected_witness :
    (10 : ℤ) = Fixtures.sysC9.limit ∧ (0 : ℤ) ≤ 0 ∧
    (App.apply_limit_request Fixtures.sysC9 10 0).1.limit =
      Fixtures.sysC9.limit ∧
    (App.apply_limit_request Fixtures.sysC9 10 0).2 = Fixtures.sysC9.limit :=
  ⟨rfl, le_refl 0,
    (C9_nonpositive_limit_rejected Fixtures.sysC9 10 0 rfl (le_refl 0)).1,
    (C9_nonpositive_limit_rejected Fixtures.sysC9 10 0 rfl (le_refl 0)).2⟩

/-- C10 (confirmed): `get_process_open_files` is total (never raises):
a missing `/proc/<pid>/fd` directory yields the empty list, and an
enumerated descriptor whose link resolution fails with
permission-denied still contributes a record with the
`[Permissão Negada]` path and unknown type instead of being dropped. -/
theorem C10_open_files_never_raises :
    ∀ (st : ModelSystem.FdDirState),
    (st.isDir = false → ModelSystem.get_process_open_files st = []) ∧
    (∀ (l : List ModelSystem.FdEntry) (e : ModelSystem.FdEntry),
      st.isDir = true → st.entries = Except.ok l → e ∈ l →
      e.link = ModelSystem.LinkResult.permDenied →
      ({ fd := e.name, path := strL "[Permissão Negada]",
         type := strL "Desconhecido" } : ModelSystem.OpenFileRec) ∈
        ModelSystem.get_process_open_files st) := by
  intro st
  constructor
  · intro h
    simp [ModelSystem.get_process_open_files, h]
  · intro l e hdir hent hmem hperm
    simp only [ModelSystem.get_process_open_files, hdir, hent,
      Bool.not_true, Bool.false_eq_true, if_false]
    exact mem_foldr_processFd hmem
      (by simp [ModelSystem.processFd, hperm])

/-- Witness for C10 at a concrete permission-denied descriptor. -/
theorem C10_open_files_never_raises_witness :
    Fixtures.stC10.isDir = true ∧
    Fixtures.stC10.entries = Except.ok [Fixtures.eC10] ∧
    Fixtures.eC10.link = ModelSystem.LinkResult.permDenied ∧
    ({ fd := Fixtures.eC10.name, path := strL "[Permissão Negada]",
       type := strL "Desconhecido" } : ModelSystem.OpenFileRec) ∈
      ModelSystem.get_process_open_files Fixtures.stC10 :=
  ⟨rfl, rfl, rfl,
    (C10_open_files_never_raises Fixtures.stC10).2 [Fixtures.eC10]
      Fixtures.eC10 rfl rfl (List.mem_singleton.2 rfl) rfl⟩

/-- C1 counterexample: the snapshot's process list is a *shallow* copy
(`list(self.processes)`), so mutating a per-process record dict reached
through the returned list changes the store's observable process
records, refuting the claimed full independence. -/
theorem C1_counterexample_inner_dict_shared :
    Controller.viewProcs
        (Controller.heapSet
          (Controller.SystemData.get_snapshot Fixtures.wC1).1.heap
          ((Controller.SystemData.get_snapshot Fixtures.wC1).2.2.headI)
          "name" (Controller.PyVal.str (strL "mutated")))
        Fixtures.wC1.sys.proc_addrs ≠
      Controller.viewProcs Fixtures.wC1.heap Fixtures.wC1.sys.proc_addrs := by
  decide

/-- C1 (corrected): the snapshot's top-level structures are fresh
copies — the returned global-info dict is a new object whose mutation
never reaches the store, and the returned pair is exactly the store's
committed pair — but the per-process record dicts inside the returned
list are shared with the store. -/
theorem C1_snapshot_top_level_copies_independent :
    ∀ (w : Controller.World) (k : String) (v : Controller.PyVal),
    w.sys.global_addr ∈ Controller.heapDom w.heap →
    (Controller.heapGet (Controller.SystemData.get_snapshot w).1.heap
        (Controller.SystemData.get_snapshot w).2.1 =
      Controller.heapGet w.heap w.sys.global_addr) ∧
    ((Controller.SystemData.get_snapshot w).2.2 = w.sys.proc_addrs) ∧
    (Controller.heapGet
        (Controller.heapSet (Controller.SystemData.get_snapshot w).1.heap
          (Controller.SystemData.get_snapshot w).2.1 k v)
        w.sys.global_addr =
      Controller.heapGet w.heap w.sys.global_addr) := by
  intro w k v hdom
  have hne : w.sys.global_addr ≠ Controller.freshAddr w.heap :=
    ne_freshAddr_of_mem hdom
  refine ⟨?_, ?_, ?_⟩
  · simp only [Controller.SystemData.get_snapshot]
    exact heapGet_cons_self _ _ _
  · rfl
  · simp only [Controller.SystemData.get_snapshot]
    rw [heapGet_heapSet_ne hne, heapGet_cons_ne hne]

/-- Witness for C1's corrected statement at a concrete world. -/
theorem C1_snapshot_top_level_copies_independent_witness :
    Fixtures.wC1.sys.global_addr ∈ Controller.heapDom Fixtures.wC1.heap ∧
    ((Controller.heapGet (Controller.SystemData.get_snapshot Fixtures.wC1).1.heap
        (Controller.SystemData.get_snapshot Fixtures.wC1).2.1 =
      Controller.heapGet Fixtures.wC1.heap Fixtures.wC1.sys.global_addr) ∧
    ((Controller.SystemData.get_snapshot Fixtures.wC1).2.2 =
      Fixtures.wC1.sys.proc_addrs) ∧
    (Controller.heapGet
        (Controller.heapSet (Controller.SystemData.get_snapshot Fixtures.wC1).1.heap
          (Controller.SystemData.get_snapshot Fixtures.wC1).2.1
          "CPU (%)" (Controller.PyVal.int 99))
        Fixtures.wC1.sys.global_addr =
      Controller.heapGet Fixtures.wC1.heap Fixtures.wC1.sys.global_addr)) :=
  ⟨by decide,
    C1_snapshot_top_level_copies_independent Fixtures.wC1
      "CPU (%)" (Controller.PyVal.int 99) (by decide)⟩

/-- C2 counterexample: the snapshot tuple has exactly two components —
the global-info dict and the process list — and none of the three
further components (filesystem info, directory listing, current path)
the claim requires. -/
theorem C2_counterexample_two_components :
    (Controller.get_snapshot_components Fixtures.wC2).length = 2 ∧
    (Controller.get_snapshot_components Fixtures.wC2).length ≠ 5 ∧
    (Controller.get_snapshot_components Fixtures.wC2).all
      (fun comp => !comp.isBeyondPair) = true := by
  decide

/-- C2 (corrected): every snapshot read returns exactly the two
published components — the global metrics dict and the process list —
reflecting the latest committed poll, and it performs no kernel I/O
(it is a pure function of the store's state). -/
theorem C2_snapshot_pair_reflects_latest_commit :
    ∀ (w : Controller.World) (infos : Controller.PyDict)
      (procs : List Controller.PyDict),
    Controller.get_snapshot_components
        (Controller.SystemData.update w infos procs) =
      [Controller.SnapComponent.globalInfo infos,
       Controller.SnapComponent.processList
         (Controller.SystemData.update w infos procs).sys.proc_addrs] ∧
    Controller.viewProcs
        (Controller.SystemData.get_snapshot
          (Controller.SystemData.update w infos procs)).1.heap
        (Controller.SystemData.get_snapshot
          (Controller.SystemData.update w infos procs)).2.2 = procs := by
  intro w infos procs
  have ha0 : Controller.freshAddr w.heap ∈
      Controller.heapDom ((Controller.freshAddr w.heap, infos) :: w.heap) := by
    simp [Controller.heapDom]
  have hget : Controller.heapGet
      (Controller.SystemData.update w infos procs).heap
      (Controller.SystemData.update w infos procs).sys.global_addr = infos := by
    simp only [Controller.SystemData.update]
    rw [heapGet_allocList_of_mem ha0]
    exact heapGet_cons_self _ _ _
  have hsub : ∀ a ∈ (Controller.SystemData.update w infos procs).sys.proc_addrs,
      a ∈ Controller.heapDom (Controller.SystemData.update w infos procs).heap := by
    simp only [Controller.SystemData.update]
    intro a haddr
    exact mem_heapDom_of_allocList_addr haddr
  constructor
  · simp only [Controller.get_snapshot_components,
      Controller.SystemData.get_snapshot]
    rw [heapGet_cons_self, hget]
  · simp only [Controller.SystemData.get_snapshot]
    rw [viewProcs_cons_fresh _ hsub]
    simp only [Controller.SystemData.update] at hsub ⊢
    exact viewProcs_allocList _ _

/-- C6 (confirmed): after a `get_processes_info` poll completes, no
entry keyed by a pid outside the poll's observed-pid set remains in
either per-pid delta-rate table (`prev_times`,
`prev_proc_io_stats`). -/
theorem C6_stale_pid_eviction :
    ∀ (inp : Model.ProcInput) (c : Model.Cache) (limit : ℕ) (pid : ℕ),
    pid ∉ inp.samples.map Model.ProcSample.pid →
    pid ∉ dkeys (Model.get_processes_info inp c limit).2.prev_times ∧
    pid ∉ dkeys (Model.get_processes_info inp c limit).2.prev_proc_io_stats := by
  intro inp c limit pid hpid
  constructor
  · simp only [Model.get_processes_info]
    exact not_mem_dkeys_evict hpid
  · simp only [Model.get_processes_info]
    exact not_mem_dkeys_evict hpid

/-- C3 counterexample: a pid seen for the first time with 500
cumulative ticks over a 1-second window gets `cpu_percent = 500`, not
`0` — the missing cache entry is read as previous value `0`. -/
theorem C3_counterexample_first_seen_cpu_not_zero :
    (Model.get_processes_info Fixtures.inpC3 Fixtures.cacheC3 10).1.map
        Model.PRecord.cpu_percent = [500] ∧
    (500 : ℚ) ≠ 0 := by
  have hstat : Model.parseStat Fixtures.statToksC3 =
      some (strL "bash", 300, 200) := by decide
  have hstatus : Model.scanStatus Fixtures.statusLnsC3 =
      some ⟨0, 100, 2⟩ := by decide
  have hio : Model.scanIo Fixtures.ioLnsC3 = some (1000, 2000) := by decide
  have d3 : digitsVal ['3', '0', '0'] = 300 := by decide
  have d2 : digitsVal ['2', '0', '0'] = 200 := by decide
  refine ⟨?_, by norm_num⟩
  simp only [Model.get_processes_info, Fixtures.inpC3, Fixtures.cacheC3,
    Fixtures.sampleC3, Model.processSamples, Model.processOne, hstat, hstatus,
    hio, Option.bind, dgetD, dget, Option.getD, dinsert, Model.CLK_TCK,
    Model.evict, dkeys, Model.sortByCpuTimeDesc, Model.insertByCpuTime]
  norm_num [d3, d2, round2, round_eq]

/-- C3 (corrected): for a pid observed for the first time the io rates
are 0 and the current cumulative counters are recorded for the next
cycle, but the per-pid CPU percentage is *not* 0 — the missing cache
entry is treated as previous value 0, so the first-cycle cpu_percent
equals the whole cumulative CPU time spread over the elapsed window;
the system-wide CPU percentage on a first sample (no prior aggregate)
is estimated instantaneously from the current sample alone. -/
theorem C3_first_observation_semantics :
    (∀ (lookupUser : ℤ → List Char) (elapsed : ℚ) (memTotal : ℤ)
      (s : Model.ProcSample) (c : Model.Cache)
      (tokens : List (List Char)) (name : List Char) (utime stime : ℤ)
      (lines : List (List Char)) (sd : Model.StatusData)
      (ioLs : List (List Char)) (curR curW : ℤ),
      s.statTokens = .ok tokens →
      Model.parseStat tokens = some (name, utime, stime) →
      s.statusLines = .ok lines →
      Model.scanStatus lines = some sd →
      s.ioLines = some ioLs →
      Model.scanIo ioLs = some (curR, curW) →
      s.pid ∉ dkeys c.prev_times →
      s.pid ∉ dkeys c.prev_proc_io_stats →
      ∃ r : Model.PRecord,
        (Model.processOne lookupUser elapsed memTotal s c).1 = some r ∧
        r.io_read_bps = 0 ∧ r.io_write_bps = 0 ∧
        r.cpu_percent = round2 (max 0 ((((utime + stime : ℤ) : ℚ) /
          ((Model.CLK_TCK : ℤ) : ℚ)) / elapsed * 100)) ∧
        dget (Model.processOne lookupUser elapsed memTotal s c).2.prev_times
          s.pid = some (utime + stime) ∧
        dget (Model.processOne lookupUser elapsed memTotal
          s c).2.prev_proc_io_stats s.pid = some (curR, curW)) ∧
    (∀ (inp : Model.GlobalInput) (c : Model.Cache) (fields : List ℤ),
      inp.statFields = some fields → c.prev_sys_total = 0 →
      8 ≤ fields.length → 0 < fields.sum →
      (Model.get_global_info inp c).1.cpu_pct =
        round2 (((fields.getD 0 0 + fields.getD 1 0 + fields.getD 2 0 +
          fields.getD 5 0 + fields.getD 6 0 + fields.getD 7 0 : ℤ) : ℚ) /
          ((fields.sum : ℤ) : ℚ) * 100)) := by
  constructor
  · exact processOne_first_observation
  · intro inp c fields hf hz h8 hsum
    simp only [Model.get_global_info, hf, hz]
    rw [cpuSection_first_sample_instant fields c.prev_sys_ocioso h8 hsum]

/-- Witness for C3's corrected statement at the concrete first-seen
pid 7 and a concrete first global sample. -/
theorem C3_first_observation_semantics_witness :
    Fixtures.sampleC3.statTokens = Model.ReadResult.ok Fixtures.statToksC3 ∧
    Fixtures.sampleC3.pid ∉ dkeys Fixtures.cacheC3.prev_times ∧
    (∃ r : Model.PRecord,
      (Model.processOne Fixtures.inpC3.lookupUser 1 1000 Fixtures.sampleC3
        Fixtures.cacheC3).1 = some r ∧
      r.io_read_bps = 0 ∧ r.io_write_bps = 0 ∧
      r.cpu_percent = round2 (max 0 ((((300 + 200 : ℤ) : ℚ) /
        ((Model.CLK_TCK : ℤ) : ℚ)) / 1 * 100)) ∧
      dget (Model.processOne Fixtures.inpC3.lookupUser 1 1000 Fixtures.sampleC3
        Fixtures.cacheC3).2.prev_times Fixtures.sampleC3.pid =
        some (300 + 200) ∧
      dget (Model.processOne Fixtures.inpC3.lookupUser 1 1000 Fixtures.sampleC3
        Fixtures.cacheC3).2.prev_proc_io_stats Fixtures.sampleC3.pid =
        some (1000, 2000)) ∧
    (Model.get_global_info Fixtures.inpC3g Fixtures.cacheC3g).1.cpu_pct =
      round2 ((([100, 20, 40, 30, 10, 0, 0, 0].getD 0 0 +
        [100, 20, 40, 30, 10, 0, 0, 0].getD 1 0 +
        [100, 20, 40, 30, 10, 0, 0, 0].getD 2 0 +
        [100, 20, 40, 30, 10, 0, 0, 0].getD 5 0 +
        [100, 20, 40, 30, 10, 0, 0, 0].getD 6 0 +
        [100, 20, 40, 30, 10, 0, 0, 0].getD 7 0 : ℤ) : ℚ) /
        (([100, 20, 40, 30, 10, 0, 0, 0].sum : ℤ) : ℚ) * 100) :=
  ⟨rfl, by decide,
    C3_first_observation_semantics.1 Fixtures.inpC3.lookupUser 1 1000
      Fixtures.sampleC3 Fixtures.cacheC3 Fixtures.statToksC3 (strL "bash")
      300 200 Fixtures.statusLnsC3 ⟨0, 100, 2⟩ Fixtures.ioLnsC3 1000 2000
      rfl (by decide) rfl (by decide) rfl (by decide) (by decide) (by decide),
    C3_first_observation_semantics.2 Fixtures.inpC3g Fixtures.cacheC3g
      [100, 20, 40, 30, 10, 0, 0, 0] rfl rfl (by decide) (by decide)⟩

/-- C4 counterexample: from the previous sample (idle 100, total 100)
and the adversarial current sample (idle 50, total 200) — the idle
counter regressed while the total advanced — the produced global
percentages are `cpu_ocioso_pct = -50` and `cpu_pct = 150`, both
outside `[0, 100]`. -/
theorem C4_counterexample_adversarial_idle_regression :
    (Model.get_global_info Fixtures.inpC4 Fixtures.cacheC4).1.cpu_ocioso_pct
      = -50 ∧
    ¬(0 ≤ (Model.get_global_info Fixtures.inpC4
        Fixtures.cacheC4).1.cpu_ocioso_pct ∧
      (Model.get_global_info Fixtures.inpC4
        Fixtures.cacheC4).1.cpu_ocioso_pct ≤ 100) ∧
    (Model.get_global_info Fixtures.inpC4 Fixtures.cacheC4).1.cpu_pct = 150 := by
  have h0 : (Model.get_global_info Fixtures.inpC4
      Fixtures.cacheC4).1.cpu_ocioso_pct = -50 := by
    simp only [Model.get_global_info, Fixtures.inpC4, Fixtures.cacheC4,
      Model.cpuSection]
    norm_num [round2, round_eq]
  have h1 : (Model.get_global_info Fixtures.inpC4
      Fixtures.cacheC4).1.cpu_pct = 150 := by
    simp only [Model.get_global_info, Fixtures.inpC4, Fixtures.cacheC4,
      Model.cpuSection]
    norm_num [round2, round_eq]
  refine ⟨h0, ?_, h1⟩
  rw [h0]
  norm_num

/-- C4 (corrected): the produced CPU, memory and per-process
percentages lie in `[0, 100]` for *well-behaved* consecutive samples —
non-negative CPU tick fields, non-decreasing idle+iowait, idle delta at
most the total delta, available memory between 0 and MemTotal, VmRSS at
most MemTotal, and per-pid tick delta at most `elapsed · CLK_TCK`.
Under adversarial (decreasing) counters the unclamped global CPU pair
leaves the interval, as the counterexample shows. -/
theorem C4_percentages_bounded_for_wellbehaved_samples :
    (∀ (inp : Model.GlobalInput) (c : Model.Cache) (fields : List ℤ),
      inp.statFields = some fields →
      (∀ x ∈ fields, 0 ≤ x) →
      c.prev_sys_ocioso ≤ fields.getD 3 0 + fields.getD 4 0 →
      fields.getD 3 0 + fields.getD 4 0 - c.prev_sys_ocioso ≤
        fields.sum - c.prev_sys_total →
      0 ≤ (Model.get_global_info inp c).1.cpu_pct ∧
      (Model.get_global_info inp c).1.cpu_pct ≤ 100 ∧
      0 ≤ (Model.get_global_info inp c).1.cpu_ocioso_pct ∧
      (Model.get_global_info inp c).1.cpu_ocioso_pct ≤ 100) ∧
    (∀ (inp : Model.GlobalInput) (c : Model.Cache) (mi : List (String × ℤ)),
      inp.meminfo = some mi →
      0 ≤ (Model.lookupMem mi "MemAvailable").getD
        ((Model.lookupMem mi "MemFree").getD 0) →
      (Model.lookupMem mi "MemAvailable").getD
        ((Model.lookupMem mi "MemFree").getD 0) ≤
        (Model.lookupMem mi "MemTotal").getD 1 →
      0 ≤ (Model.get_global_info inp c).1.mem_pct ∧
      (Model.get_global_info inp c).1.mem_pct ≤ 100 ∧
      0 ≤ (Model.get_global_info inp c).1.mem_livre_pct ∧
      (Model.get_global_info inp c).1.mem_livre_pct ≤ 100) ∧
    (∀ (lookupUser : ℤ → List Char) (elapsed : ℚ) (memTotal : ℤ)
      (s : Model.ProcSample) (c : Model.Cache) (tokens : List (List Char))
      (name : List Char) (utime stime : ℤ) (lines : List (List Char))
      (sd : Model.StatusData),
      0 < elapsed → 0 < memTotal →
      s.statTokens = .ok tokens →
      Model.parseStat tokens = some (name, utime, stime) →
      s.statusLines = .ok lines →
      Model.scanStatus lines = some sd →
      ((utime + stime - dgetD c.prev_times s.pid 0 : ℤ) : ℚ) ≤
        elapsed * ((Model.CLK_TCK : ℤ) : ℚ) →
      0 ≤ sd.memKb → sd.memKb ≤ memTotal →
      ∃ r : Model.PRecord,
        (Model.processOne lookupUser elapsed memTotal s c).1 = some r ∧
        0 ≤ r.cpu_percent ∧ r.cpu_percent ≤ 100 ∧
        0 ≤ r.memory_percent ∧ r.memory_percent ≤ 100) := by
  refine ⟨?_, ?_, processOne_pct_bounds⟩
  · intro inp c fields hf h1 h2 h3
    have hb := cpuSection_bounds fields c.prev_sys_ocioso c.prev_sys_total
      h1 h2 h3
    simp only [Model.get_global_info, hf]
    exact ⟨round2_nonneg hb.1, round2_le_100 hb.2.1,
      round2_nonneg hb.2.2.1, round2_le_100 hb.2.2.2⟩
  · intro inp c mi hm h0 h1
    have hb := memSection_bounds mi h0 h1
    simp only [Model.get_global_info, hm]
    exact ⟨round2_nonneg hb.1, round2_le_100 hb.2.1,
      round2_nonneg hb.2.2.1, round2_le_100 hb.2.2.2⟩

/-- Witness for C4's corrected statement at concrete well-behaved
samples. -/
theorem C4_percentages_bounded_witness :
    (∀ x ∈ [(150 : ℤ), 0, 0, 50, 0, 0, 0, 0], 0 ≤ x) ∧
    (0 ≤ (Model.get_global_info Fixtures.inpC4w Fixtures.cacheC4w).1.cpu_pct ∧
      (Model.get_global_info Fixtures.inpC4w Fixtures.cacheC4w).1.cpu_pct
        ≤ 100 ∧
      0 ≤ (Model.get_global_info Fixtures.inpC4w
        Fixtures.cacheC4w).1.cpu_ocioso_pct ∧
      (Model.get_global_info Fixtures.inpC4w
        Fixtures.cacheC4w).1.cpu_ocioso_pct ≤ 100) ∧
    (0 ≤ (Model.get_global_info Fixtures.inpC4w Fixtures.cacheC4w).1.mem_pct ∧
      (Model.get_global_info Fixtures.inpC4w Fixtures.cacheC4w).1.mem_pct
        ≤ 100 ∧
      0 ≤ (Model.get_global_info Fixtures.inpC4w
        Fixtures.cacheC4w).1.mem_livre_pct ∧
      (Model.get_global_info Fixtures.inpC4w
        Fixtures.cacheC4w).1.mem_livre_pct ≤ 100) ∧
    (∃ r : Model.PRecord,
      (Model.processOne (fun _ => []) 1 1000 Fixtures.sampleC4w
        Fixtures.cacheC4w).1 = some r ∧
      0 ≤ r.cpu_percent ∧ r.cpu_percent ≤ 100 ∧
      0 ≤ r.memory_percent ∧ r.memory_percent ≤ 100) :=
  ⟨by decide,
    C4_percentages_bounded_for_wellbehaved_samples.1 Fixtures.inpC4w
      Fixtures.cacheC4w [150, 0, 0, 50, 0, 0, 0, 0] rfl (by decide)
      (by decide) (by decide),
    C4_percentages_bounded_for_wellbehaved_samples.2.1 Fixtures.inpC4w
      Fixtures.cacheC4w [("MemTotal", 1000), ("MemAvailable", 400)] rfl
      (by decide) (by decide),
    C4_percentages_bounded_for_wellbehaved_samples.2.2 (fun _ => []) 1 1000
      Fixtures.sampleC4w Fixtures.cacheC4w
      (Fixtures.mkStatToks "7" "(w)" "50" "0") (strL "w") 50 0
      Fixtures.statusLnsC3 ⟨0, 100, 2⟩ (by norm_num) (by norm_num) rfl
      (by decide) rfl (by decide)
      (by
        have hd : dgetD Fixtures.cacheC4w.prev_times Fixtures.sampleC4w.pid
            (0 : ℤ) = 20 := by decide
        rw [hd]
        norm_num [Model.CLK_TCK])
      (by decide) (by decide)⟩

/-- C5 (confirmed): every successful process-table build is sorted in
non-increasing order of cumulative `cpu_time` (not `cpu_percent`) and
truncated to at most `limit` records; for cumulative CPU times
`[5, 20, 1]` with limit 2 the result is `[20, 5]` even though the
per-cycle percent ranking (`[500, 100, 1]`) would order it
differently. -/
theorem C5_sorted_by_cumulative_cpu_time :
    (∀ (inp : Model.ProcInput) (c : Model.Cache) (limit : ℕ),
      ((Model.get_processes_info inp c limit).1).Pairwise
        (fun a b => b.cpu_time ≤ a.cpu_time) ∧
      (Model.get_processes_info inp c limit).1.length ≤ limit) ∧
    (Model.get_processes_info Fixtures.inpC5 Fixtures.cacheC5 2).1.map
        Model.PRecord.cpu_time = [20, 5] ∧
    (Model.get_processes_info Fixtures.inpC5 Fixtures.cacheC5 2).1.map
        Model.PRecord.cpu_percent = [100, 500] := by
  have ha : Model.parseStat (Fixtures.mkStatToks "1" "(a)" "500" "0") =
      some (strL "a", 500, 0) := by decide
  have hb : Model.parseStat (Fixtures.mkStatToks "2" "(b)" "2000" "0") =
      some (strL "b", 2000, 0) := by decide
  have hc : Model.parseStat (Fixtures.mkStatToks "3" "(c)" "100" "0") =
      some (strL "c", 100, 0) := by decide
  have hs : Model.scanStatus [] = some ⟨-1, 0, 0⟩ := by decide
  have d0 : digitsVal ['0'] = 0 := by decide
  have d100 : digitsVal ['1', '0', '0'] = 100 := by decide
  have d500 : digitsVal ['5', '0', '0'] = 500 := by decide
  have d2000 : digitsVal ['2', '0', '0', '0'] = 2000 := by decide
  refine ⟨?_, ?_, ?_⟩
  · intro inp c limit
    constructor
    · simp only [Model.get_processes_info]
      exact List.Pairwise.sublist (List.take_sublist _ _)
        (sorted_sortByCpuTimeDesc _)
    · simp only [Model.get_processes_info]
      rw [List.length_take]
      exact min_le_left _ _
  all_goals
    simp only [Model.get_processes_info, Fixtures.inpC5, Fixtures.cacheC5,
      Fixtures.sC5a, Fixtures.sC5b, Fixtures.sC5c, Model.processSamples,
      Model.processOne, ha, hb, hc, hs, Option.bind, dgetD, dget,
      Option.getD, dinsert, Model.CLK_TCK, Model.evict, dkeys,
      Model.sortByCpuTimeDesc, Model.insertByCpuTime]
    norm_num [d0, d100, d500, d2000, round2, round_eq,
      Model.insertByCpuTime]

/-- Witness for C6: a cache with entries for pid 99 and a poll that no
longer observes it. -/
theorem C6_stale_pid_eviction_witness :
    (99 : ℕ) ∉ Fixtures.inpC6.samples.map Model.ProcSample.pid ∧
    99 ∉ dkeys (Model.get_processes_info Fixtures.inpC6
      Fixtures.cacheC6 10).2.prev_times ∧
    99 ∉ dkeys (Model.get_processes_info Fixtures.inpC6
      Fixtures.cacheC6 10).2.prev_proc_io_stats :=
  ⟨by decide,
    (C6_stale_pid_eviction Fixtures.inpC6 Fixtures.cacheC6 10 99 (by decide)).1,
    (C6_stale_pid_eviction Fixtures.inpC6 Fixtures.cacheC6 10 99 (by decide)).2⟩

end DashSO
